import Mathlib

/-!
Verification development for the mini-compiler backend: a shallow embedding
of the semantic analyzer (static_semantic_ast_visitor.py) and the code
generator (code_gen_ast_visitor.py) over the Mini AST, together with
theorems settling the specification claims.

Conventions of the embedding:
* Python dictionaries are modelled as association lists with insert-or-update
  semantics (`dictInsert`); lookup finds the first (unique) matching key.
* Identifier nodes are flattened to `String` (the Python `Name` helper only
  extracts the `.id` string from an `IdentifierExpression`).
* The analyzer's printed error messages become constructors of the `Diag`
  inductive, one constructor per distinct message text; diagnostics are
  collected in emission order.  Source line numbers are dropped: no claim
  mentions them.
* The generator's emitted instruction strings become an `Instr` stream:
  an instruction of the exact shape `    addi sp, sp, {k}` (the only form
  that moves the stack pointer) is `Instr.addiSp k`, every other emitted
  line is `Instr.other text`; `render` recovers the exact source text.
-/

namespace MiniCompiler

/-! ## Association-list model of Python dicts -/

def lookupA {α : Type} (m : List (String × α)) (k : String) : Option α :=
  (m.find? (fun p => p.1 = k)).map (fun p => p.2)

def dictInsert {α : Type} (m : List (String × α)) (k : String) (v : α) :
    List (String × α) :=
  if (lookupA m k).isSome then
    m.map (fun p => if p.1 = k then (k, v) else p)
  else
    m ++ [(k, v)]

def dictErase {α : Type} (m : List (String × α)) (k : String) :
    List (String × α) :=
  m.filter (fun p => ¬ p.1 = k)

def hasKey {α : Type} (m : List (String × α)) (k : String) : Bool :=
  (lookupA m k).isSome

/-! ## AST (miniast node shapes, flattened to data) -/

inductive Ty where
  | IntType : Ty
  | BoolType : Ty
  | StructType (name : String) : Ty
deriving DecidableEq, Repr

inductive RetTy where
  | ReturnTypeReal (type_ : Ty) : RetTy
  | ReturnTypeVoid : RetTy
deriving DecidableEq, Repr

structure Declaration where
  name : String
  type : Ty
deriving DecidableEq, Repr

structure TypeDeclaration where
  name : String
  fields : List Declaration
deriving DecidableEq, Repr

inductive Expression where
  | IntegerExpression (value : Int) : Expression
  | TrueExpression : Expression
  | FalseExpression : Expression
  | NullExpression : Expression
  | ReadExpression : Expression
  | IdentifierExpression (id : String) : Expression
  | DotExpression (left : Expression) (id : String) : Expression
  | UnaryExpression (operator : String) (operand : Expression) : Expression
  | BinaryExpression (operator : String) (left : Expression)
      (right : Expression) : Expression
  | InvocationExpression (name : String)
      (arguments : List Expression) : Expression
  | NewExpression (id : String) : Expression

inductive LValue where
  | LValueID (id : String) : LValue
  | LValueDot (left : LValue) (id : String) : LValue
deriving DecidableEq, Repr

inductive Statement where
  | BlockStatement (statements : List Statement) : Statement
  | AssignmentStatement (target : LValue) (source : Expression) : Statement
  | PrintStatement (expression : Expression) : Statement
  | PrintLnStatement (expression : Expression) : Statement
  | ConditionalStatement (guard : Expression) (then_block : Statement)
      (else_block : Option Statement) : Statement
  | WhileStatement (guard : Expression) (body : Statement) : Statement
  | DeleteStatement (expression : Expression) : Statement
  | ReturnStatement (expression : Option Expression) : Statement
  | ReturnEmptyStatement : Statement
  | InvocationStatement (expression : Expression) : Statement

structure Function where
  name : String
  params : List Declaration
  ret_type : RetTy
  locals : List Declaration
  body : List Statement

structure Program where
  types : List TypeDeclaration
  declarations : List Declaration
  functions : List Function

/-! ## Layout Calculator (code_gen_ast_visitor.py, lines 139-161) -/

/-- The `_type_size`: size in bytes for a type; struct-typed fields are
pointers, so every kind is one 4-byte word. -/
def type_size : Ty → Nat
  | Ty.IntType => 4
  | Ty.BoolType => 4
  | Ty.StructType _ => 4

structure StructLayout where
  fields : List (String × Nat)
  size : Nat
deriving DecidableEq, Repr

/-- The field loop of `_calculate_struct_layout`: assign each field the
running offset, then advance by that field's size. -/
def layoutFields (fs : List Declaration) (offset : Nat)
    (acc : List (String × Nat)) : List (String × Nat) × Nat :=
  match fs with
  | [] => (acc, offset)
  | f :: rest =>
      layoutFields rest (offset + type_size f.type)
        (dictInsert acc f.name offset)

/-- The `_calculate_struct_layout`: field-offset table and total size of one
struct declaration. -/
def calculate_struct_layout (tdecl : TypeDeclaration) : StructLayout :=
  let r := layoutFields tdecl.fields 0 []
  { fields := r.1, size := r.2 }

/-! ## Semantic Analyzer (static_semantic_ast_visitor.py) -/

/-- Analyzer type values: the INT/BOOL/VOID/NULL tuple constants plus the
("struct", name) tuples built for registered struct types. -/
inductive MiniTy where
  | INT : MiniTy
  | BOOL : MiniTy
  | VOID : MiniTy
  | NULL : MiniTy
  | STRUCT (name : String) : MiniTy
deriving DecidableEq, Repr

/-- One constructor per distinct `self.Error(...)` message text of the
analyzer, in source order of the call sites; line numbers are dropped. -/
inductive Diag where
  | redeclaration (name : String)
  | duplicateStruct (name : String)
  | duplicateGlobal (name : String)
  | undefinedStructGlobal (name : String)
  | duplicateFunction (name : String)
  | mainMissing
  | mainTakesNoArgs
  | mainMustReturnInt
  | duplicateField (name : String)
  | undefinedStructField (name : String)
  | duplicateParameter (name : String)
  | undefinedStructParam (name : String)
  | duplicateLocal (name : String)
  | undefinedStructLocal (name : String)
  | nonVoidMustReturn
  | voidCannotReturnFn
  | returnTypeMismatch
  | missingReturn
  | undefinedStructTypeNode (name : String)
  | assignmentTypeMismatch
  | conditionMustBeBool
  | conditionMustBeBoolWhile
  | deleteRequiresStruct
  | printRequiresInt
  | voidCannotReturnStmt
  | undefinedVariable (name : String)
  | dotRequiresStruct
  | noSuchField (sname fname : String)
  | undefinedStructNew (name : String)
  | undefinedFunction (name : String)
  | wrongNumberOfArguments (fname : String)
  | cannotPassNull
  | argumentTypeMismatch
  | unaryRequiresBool
  | unaryRequiresInt
  | arithmeticRequiresInt
  | comparisonRequiresInt
  | cannotCompareNullNonStruct
  | equalityRequiresMatching
  | booleanOpsRequireBool
  | fieldNotFound (fname : String)
deriving DecidableEq, Repr

/-- The `SemanticAnalyzer.Type`: map a type node to the analyzer type value;
a struct type whose name is not (yet) registered maps to `none`. -/
def TypeOfTy (structs : List (String × TypeDeclaration)) : Ty → Option MiniTy
  | Ty.IntType => some MiniTy.INT
  | Ty.BoolType => some MiniTy.BOOL
  | Ty.StructType sname =>
      if hasKey structs sname then some (MiniTy.STRUCT sname) else none

/-- The `SemanticAnalyzer.Type` on return-type nodes. -/
def TypeOfRet (structs : List (String × TypeDeclaration)) :
    RetTy → Option MiniTy
  | RetTy.ReturnTypeVoid => some MiniTy.VOID
  | RetTy.ReturnTypeReal t => TypeOfTy structs t

/-- The `_is_struct`. -/
def is_struct : MiniTy → Bool
  | MiniTy.STRUCT _ => true
  | _ => false

/-- The `_types_match`: `None` on either side is never a match; `null` is
compatible with any struct target; otherwise equality. -/
def types_match : Option MiniTy → Option MiniTy → Bool
  | some a, some b => (b == MiniTy.NULL && is_struct a) || a == b
  | _, _ => false

/-- The `SymbolTable.define`: error on redeclaration, otherwise insert. -/
def SymbolTable.define (symbols : List (String × Declaration)) (name : String)
    (decl : Declaration) : List (String × Declaration) × List Diag :=
  if hasKey symbols name then (symbols, [Diag.redeclaration name])
  else (dictInsert symbols name decl, [])

/-- The `SymbolTable.lookupTable`: walk the scope chain, innermost first.  In
the source the chain is always the current function scope (if any)
followed by the global scope. -/
def lookupTable (scopes : List (List (String × Declaration)))
    (name : String) : Option Declaration :=
  match scopes with
  | [] => none
  | s :: rest =>
      match lookupA s name with
      | some d => some d
      | none => lookupTable rest name

/-- The analyzer's traversal context: registered structs and functions,
the scope chain, and the function currently being checked. -/
structure Ctx where
  structs : List (String × TypeDeclaration)
  functions : List (String × Function)
  scopes : List (List (String × Declaration))
  current_function : Option Function

/-- The operator dispatch of `visit_binary_expression`, applied once both
operand types resolved; `d` carries the operand diagnostics. -/
def binOpCheck (op : String) (lt rt : MiniTy) (d : List Diag) :
    Option MiniTy × List Diag :=
  if op = "*" ∨ op = "/" ∨ op = "+" ∨ op = "-" then
    (some MiniTy.INT,
      d ++ if lt ≠ MiniTy.INT ∨ rt ≠ MiniTy.INT
           then [Diag.arithmeticRequiresInt] else [])
  else if op = "<" ∨ op = ">" ∨ op = "<=" ∨ op = ">=" then
    (some MiniTy.BOOL,
      d ++ if lt ≠ MiniTy.INT ∨ rt ≠ MiniTy.INT
           then [Diag.comparisonRequiresInt] else [])
  else if op = "==" ∨ op = "!=" then
    (some MiniTy.BOOL,
      d ++ (if lt = MiniTy.NULL then
              (if ¬ is_struct rt then [Diag.cannotCompareNullNonStruct] else [])
            else if rt = MiniTy.NULL then
              (if ¬ is_struct lt then [Diag.cannotCompareNullNonStruct] else [])
            else if lt ≠ rt then [Diag.equalityRequiresMatching] else []))
  else if op = "&&" ∨ op = "||" then
    (some MiniTy.BOOL,
      d ++ if lt ≠ MiniTy.BOOL ∨ rt ≠ MiniTy.BOOL
           then [Diag.booleanOpsRequireBool] else [])
  else (none, d)

mutual

/-- The expression visitors (`_expr_type` dispatch): resulting type (or
`none`) and the diagnostics emitted while visiting, in order. -/
def exprType (ctx : Ctx) : Expression → Option MiniTy × List Diag
  | Expression.IntegerExpression _ => (some MiniTy.INT, [])
  | Expression.TrueExpression => (some MiniTy.BOOL, [])
  | Expression.FalseExpression => (some MiniTy.BOOL, [])
  | Expression.NullExpression => (some MiniTy.NULL, [])
  | Expression.ReadExpression => (some MiniTy.INT, [])
  | Expression.IdentifierExpression name =>
      (match lookupTable ctx.scopes name with
       | some decl => (TypeOfTy ctx.structs decl.type, [])
       | none => (none, [Diag.undefinedVariable name]))
  | Expression.DotExpression left fieldId =>
      let r := exprType ctx left
      (match r.1 with
       | none => (none, r.2)
       | some (MiniTy.STRUCT sname) =>
          (match lookupA ctx.structs sname with
           | none => (none, r.2)
           | some sd =>
              (match sd.fields.find? (fun f => f.name = fieldId) with
               | some fld => (TypeOfTy ctx.structs fld.type, r.2)
               | none => (none, r.2 ++ [Diag.noSuchField sname fieldId])))
       | some _ => (none, r.2 ++ [Diag.dotRequiresStruct]))
  | Expression.UnaryExpression op operand =>
      let r := exprType ctx operand
      (match r.1 with
       | none => (none, r.2)
       | some ot =>
          if op = "!" then
            (some MiniTy.BOOL,
              r.2 ++ if ot ≠ MiniTy.BOOL then [Diag.unaryRequiresBool] else [])
          else if op = "-" then
            (some MiniTy.INT,
              r.2 ++ if ot ≠ MiniTy.INT then [Diag.unaryRequiresInt] else [])
          else (none, r.2))
  | Expression.BinaryExpression op l r =>
      let rl := exprType ctx l
      let rr := exprType ctx r
      (match rl.1, rr.1 with
       | some lt, some rt => binOpCheck op lt rt (rl.2 ++ rr.2)
       | _, _ => (none, rl.2 ++ rr.2))
  | Expression.InvocationExpression fname args =>
      (match lookupA ctx.functions fname with
       | none => (none, [Diag.undefinedFunction fname])
       | some fn =>
          let cnt := if fn.params.length ≠ args.length
                     then [Diag.wrongNumberOfArguments fname] else []
          (TypeOfRet ctx.structs fn.ret_type, cnt ++ argChecks ctx args fn.params))
  | Expression.NewExpression sname =>
      if hasKey ctx.structs sname then (some (MiniTy.STRUCT sname), [])
      else (none, [Diag.undefinedStructNew sname])

/-- The `zip(arguments, params)` loop of `visit_invocation_expression`. -/
def argChecks (ctx : Ctx) : List Expression → List Declaration → List Diag
  | [], _ => []
  | _ :: _, [] => []
  | a :: restA, p :: restP =>
      let r := exprType ctx a
      let pt := TypeOfTy ctx.structs p.type
      let extra :=
        match r.1, pt with
        | some a_t, some p_t =>
            if a_t = MiniTy.NULL ∧ ¬ is_struct p_t then [Diag.cannotPassNull]
            else if a_t ≠ p_t ∧ a_t ≠ MiniTy.NULL then [Diag.argumentTypeMismatch]
            else []
        | _, _ => []
      r.2 ++ extra ++ argChecks ctx restA restP

end

/-- The lvalue visitors (`_lvalue_type` dispatch). -/
def lvalueType (ctx : Ctx) : LValue → Option MiniTy × List Diag
  | LValue.LValueID name =>
      (match lookupTable ctx.scopes name with
       | some decl => (TypeOfTy ctx.structs decl.type, [])
       | none => (none, [Diag.undefinedVariable name]))
  | LValue.LValueDot left fieldId =>
      let r := lvalueType ctx left
      (match r.1 with
       | none => (none, r.2)
       | some (MiniTy.STRUCT sname) =>
          (match lookupA ctx.structs sname with
           | none => (none, r.2)
           | some sd =>
              (match sd.fields.find? (fun f => f.name = fieldId) with
               | some fld => (TypeOfTy ctx.structs fld.type, r.2)
               | none => (none, r.2 ++ [Diag.fieldNotFound fieldId])))
       | some _ => (none, r.2 ++ [Diag.dotRequiresStruct]))

/-- A statement "has statements" exactly when it is a non-empty block
(the `getattr(stmt.else_block, "statements", [])` test). -/
def hasStatements : Statement → Bool
  | Statement.BlockStatement ss => !ss.isEmpty
  | _ => false

mutual

/-- The statement visitors: diagnostics emitted, in order. -/
def stmtCheck (ctx : Ctx) : Statement → List Diag
  | Statement.BlockStatement ss => stmtsCheck ctx ss
  | Statement.AssignmentStatement target source =>
      let lt := lvalueType ctx target
      let rt := exprType ctx source
      lt.2 ++ rt.2 ++
        (if lt.1.isSome ∧ rt.1.isSome ∧ ¬ types_match lt.1 rt.1
         then [Diag.assignmentTypeMismatch] else [])
  | Statement.ConditionalStatement guard then_block else_block =>
      let g := exprType ctx guard
      g.2 ++
        (match g.1 with
         | some t => if t ≠ MiniTy.BOOL then [Diag.conditionMustBeBool] else []
         | none => []) ++
        stmtCheck ctx then_block ++
        (match else_block with
         | some e => if hasStatements e then stmtCheck ctx e else []
         | none => [])
  | Statement.WhileStatement guard body =>
      let g := exprType ctx guard
      g.2 ++
        (match g.1 with
         | some t => if t ≠ MiniTy.BOOL then [Diag.conditionMustBeBoolWhile] else []
         | none => []) ++
        stmtCheck ctx body
  | Statement.DeleteStatement e =>
      let r := exprType ctx e
      r.2 ++
        (match r.1 with
         | some t => if ¬ is_struct t then [Diag.deleteRequiresStruct] else []
         | none => [])
  | Statement.InvocationStatement e => (exprType ctx e).2
  | Statement.PrintLnStatement e =>
      let r := exprType ctx e
      r.2 ++ (if r.1 ≠ some MiniTy.INT then [Diag.printRequiresInt] else [])
  | Statement.PrintStatement e =>
      let r := exprType ctx e
      r.2 ++ (if r.1 ≠ some MiniTy.INT then [Diag.printRequiresInt] else [])
  | Statement.ReturnEmptyStatement =>
      (match ctx.current_function with
       | some f =>
          if TypeOfRet ctx.structs f.ret_type ≠ some MiniTy.VOID
          then [Diag.nonVoidMustReturn] else []
       | none => [])
  | Statement.ReturnStatement oe =>
      (match ctx.current_function with
       | none => []
       | some f =>
          let declared := TypeOfRet ctx.structs f.ret_type
          (match oe with
           | some e =>
              let r := exprType ctx e
              r.2 ++
                (if declared = some MiniTy.VOID then [Diag.voidCannotReturnStmt]
                 else if r.1.isSome ∧ ¬ types_match declared r.1
                 then [Diag.returnTypeMismatch]
                 else [])
           | none =>
              if declared ≠ some MiniTy.VOID then [Diag.nonVoidMustReturn]
              else []))

/-- The per-body statement loop. -/
def stmtsCheck (ctx : Ctx) : List Statement → List Diag
  | [] => []
  | s :: rest => stmtCheck ctx s ++ stmtsCheck ctx rest

end

/-- The field loop of `visit_type_declaration`: duplicate-field check and
the undefined-struct check with the self-reference exception. -/
def fieldChecks (structs : List (String × TypeDeclaration))
    (struct_name : String) (seen : List String) :
    List Declaration → List Diag
  | [] => []
  | f :: rest =>
      let dup := if f.name ∈ seen then [Diag.duplicateField f.name] else []
      let seen2 := if f.name ∈ seen then seen else f.name :: seen
      let ft := TypeOfTy structs f.type
      let sc :=
        match f.type with
        | Ty.StructType sname =>
            if ft = none ∧ sname ≠ struct_name ∧ ¬ hasKey structs sname
            then [Diag.undefinedStructField sname] else []
        | _ => []
      dup ++ sc ++ fieldChecks structs struct_name seen2 rest

/-- The `visit_type_declaration`. -/
def visit_type_declaration (structs : List (String × TypeDeclaration))
    (tdecl : TypeDeclaration) : List Diag :=
  fieldChecks structs tdecl.name [] tdecl.fields

/-- The struct-registration loop of `visit_program`: each declaration is
registered (or reported as duplicate) and then visited, in order. -/
def registerStructs (structs : List (String × TypeDeclaration)) :
    List TypeDeclaration → List (String × TypeDeclaration) × List Diag
  | [] => (structs, [])
  | t :: rest =>
      let s2 := if hasKey structs t.name then structs
                else dictInsert structs t.name t
      let d1 := if hasKey structs t.name then [Diag.duplicateStruct t.name]
                else []
      let d2 := visit_type_declaration s2 t
      let r := registerStructs s2 rest
      (r.1, d1 ++ d2 ++ r.2)

/-- The global-declaration loop of `visit_program`; `decl.type.accept`
re-reports an unregistered struct type via `visit_struct_type`. -/
def registerGlobals (structs : List (String × TypeDeclaration))
    (globals : List (String × Declaration)) :
    List Declaration → List (String × Declaration) × List Diag
  | [] => (globals, [])
  | decl :: rest =>
      let dup := hasKey globals decl.name
      let dr := if dup then (globals, [Diag.duplicateGlobal decl.name])
                else SymbolTable.define globals decl.name decl
      let d2 :=
        match decl.type with
        | Ty.StructType sname =>
            if TypeOfTy structs decl.type = none
            then [Diag.undefinedStructGlobal sname] else []
        | _ => []
      let d3 :=
        match decl.type with
        | Ty.StructType sname =>
            if ¬ hasKey structs sname
            then [Diag.undefinedStructTypeNode sname] else []
        | _ => []
      let r := registerGlobals structs dr.1 rest
      (r.1, dr.2 ++ d2 ++ d3 ++ r.2)

/-- The function-registration loop of `visit_program` (names only). -/
def registerFunctions (funcs : List (String × Function)) :
    List Function → List (String × Function) × List Diag
  | [] => (funcs, [])
  | f :: rest =>
      let f2 := if hasKey funcs f.name then funcs
                else dictInsert funcs f.name f
      let d1 := if hasKey funcs f.name then [Diag.duplicateFunction f.name]
                else []
      let r := registerFunctions f2 rest
      (r.1, d1 ++ r.2)

/-- The parameter/local registration loops of `visit_function`; the two
loops are identical up to the duplicate/undefined diagnostics emitted. -/
def defineVars (structs : List (String × TypeDeclaration))
    (dupD undefD : String → Diag) (scope : List (String × Declaration)) :
    List Declaration → List (String × Declaration) × List Diag
  | [] => (scope, [])
  | p :: rest =>
      let dr := if hasKey scope p.name then (scope, [dupD p.name])
                else SymbolTable.define scope p.name p
      let d2 :=
        match p.type with
        | Ty.StructType sname =>
            if TypeOfTy structs p.type = none ∧ ¬ hasKey structs sname
            then [undefD sname] else []
        | _ => []
      let r := defineVars structs dupD undefD dr.1 rest
      (r.1, dr.2 ++ d2 ++ r.2)

/-- The end-of-body return check of `visit_function` (lines 270-290): it
inspects only the body's last statement. -/
def returnCheckAtEnd (ctx : Ctx) (func : Function) : List Diag :=
  let declared := TypeOfRet ctx.structs func.ret_type
  match func.body.getLast? with
  | some Statement.ReturnEmptyStatement =>
      if declared ≠ some MiniTy.VOID then [Diag.nonVoidMustReturn] else []
  | some (Statement.ReturnStatement (some e)) =>
      let r := exprType ctx e
      r.2 ++
        (if r.1.isSome ∧ declared = some MiniTy.VOID then [Diag.voidCannotReturnFn]
         else if r.1.isSome ∧ ¬ types_match declared r.1
         then [Diag.returnTypeMismatch]
         else [])
  | some (Statement.ReturnStatement none) =>
      if declared ≠ some MiniTy.VOID then [Diag.nonVoidMustReturn] else []
  | some _ => if declared ≠ some MiniTy.VOID then [Diag.missingReturn] else []
  | none => if declared ≠ some MiniTy.VOID then [Diag.missingReturn] else []

/-- The `visit_function`: register parameters and locals into a fresh function
scope chained to the global scope, check the body, then run the
last-statement return check. -/
def analyzeFunction (structs : List (String × TypeDeclaration))
    (functionsMap : List (String × Function))
    (globals : List (String × Declaration)) (func : Function) : List Diag :=
  let pr := defineVars structs Diag.duplicateParameter Diag.undefinedStructParam
              [] func.params
  let lr := defineVars structs Diag.duplicateLocal Diag.undefinedStructLocal
              pr.1 func.locals
  let ctx : Ctx :=
    { structs := structs, functions := functionsMap,
      scopes := [lr.1, globals], current_function := some func }
  pr.2 ++ lr.2 ++ stmtsCheck ctx func.body ++ returnCheckAtEnd ctx func

/-- The entry-point checks at the end of `visit_program`. -/
def mainChecks (structs : List (String × TypeDeclaration))
    (functionsMap : List (String × Function)) : List Diag :=
  match lookupA functionsMap "main" with
  | none => [Diag.mainMissing]
  | some mainFn =>
      (if mainFn.params.length ≠ 0 then [Diag.mainTakesNoArgs] else []) ++
      (if TypeOfRet structs mainFn.ret_type ≠ some MiniTy.INT
       then [Diag.mainMustReturnInt] else [])

/-- The `visit_program`: the whole analysis pass, diagnostics in order. -/
def analyzeProgram (p : Program) : List Diag :=
  let sr := registerStructs [] p.types
  let gr := registerGlobals sr.1 [] p.declarations
  let fr := registerFunctions [] p.functions
  sr.2 ++ gr.2 ++ fr.2 ++
    (p.functions.map (analyzeFunction sr.1 fr.1 gr.1)).flatten ++
    mainChecks sr.1 fr.1

/-! ## Code Generator (code_gen_ast_visitor.py)

The generator emits instruction text lines.  The only emitted form that
moves the stack pointer is `    addi sp, sp, {k}`; it is modelled by the
dedicated constructor `Instr.addiSp k` so that net stack effects are
expressible, every other emitted line is carried verbatim as
`Instr.other`; `Instr.render` recovers the exact text of each line. -/

inductive Instr where
  | addiSp (k : Int) : Instr
  | other (text : String) : Instr
deriving DecidableEq, Repr

def Instr.render : Instr → String
  | Instr.addiSp k => s!"    addi sp, sp, {k}"
  | Instr.other t => t

/-- Stack-pointer displacement of one emitted instruction (external calls
are balanced by the convention and count as zero). -/
def spDelta : Instr → Int
  | Instr.addiSp k => k
  | Instr.other _ => 0

def spSum (l : List Instr) : Int := (l.map spDelta).sum

/-- Generator context while inside one function: struct layouts, global
labels, frame offsets of locals, the variable type environment, the
current function name and its reserved locals size. -/
structure CGCtx where
  structs : List (String × StructLayout)
  globals : List (String × String)
  locals : List (String × Int)
  type_environment : List (String × Ty)
  current_function : Option String
  current_locals_size : Nat

/-- The `_get_struct_type`: only a direct identifier with a struct-typed entry
in the type environment resolves; nested dot bases do not. -/
def get_struct_type (env : List (String × Ty)) : Expression → Option String
  | Expression.IdentifierExpression var_name =>
      (match lookupA env var_name with
       | some (Ty.StructType n) => some n
       | _ => none)
  | _ => none

/-- The operator table of `visit_binary_expression` (unknown operators
emit nothing). -/
def binOpInstrs (op : String) : List Instr :=
  if op = "+" then [Instr.other "    add t0, t0, t1"]
  else if op = "-" then [Instr.other "    sub t0, t0, t1"]
  else if op = "*" then [Instr.other "    mul t0, t0, t1"]
  else if op = "/" then [Instr.other "    div t0, t0, t1"]
  else if op = "<" then [Instr.other "    slt t0, t0, t1"]
  else if op = ">" then [Instr.other "    slt t0, t1, t0"]
  else if op = "<=" then
    [Instr.other "    slt t0, t1, t0", Instr.other "    xori t0, t0, 1"]
  else if op = ">=" then
    [Instr.other "    slt t0, t0, t1", Instr.other "    xori t0, t0, 1"]
  else if op = "==" then
    [Instr.other "    sub t0, t0, t1", Instr.other "    seqz t0, t0"]
  else if op = "!=" then
    [Instr.other "    sub t0, t0, t1", Instr.other "    snez t0, t0"]
  else if op = "&&" then
    [Instr.other "    and t0, t0, t1", Instr.other "    snez t0, t0"]
  else if op = "||" then
    [Instr.other "    or t0, t0, t1", Instr.other "    snez t0, t0"]
  else []

/-- The register moves after argument staging: `lw a{i}, {i*4}(sp)` for
`i < min(num_args, 8)`. -/
def argRegMoves (n : Nat) : List Instr :=
  (List.range n).map (fun i => Instr.other s!"    lw a{i}, {i*4}(sp)")

mutual

/-- The expression visitors of the generator: instruction lines emitted,
in order; the value is left in `t0`. -/
def genExpr (ctx : CGCtx) : Expression → List Instr
  | Expression.IntegerExpression v => [Instr.other s!"    li t0, {v}"]
  | Expression.TrueExpression => [Instr.other "    li t0, 1"]
  | Expression.FalseExpression => [Instr.other "    li t0, 0"]
  | Expression.NullExpression => [Instr.other "    li t0, 0"]
  | Expression.ReadExpression =>
      [Instr.other "    la t0, input_file_ptr",
       Instr.other "    lw a0, 0(t0)",
       Instr.other "    jal read_int",
       Instr.other "    mv t0, a0"]
  | Expression.IdentifierExpression name =>
      (match lookupA ctx.locals name with
       | some offset => [Instr.other s!"    lw t0, {offset}(fp)"]
       | none =>
          (match lookupA ctx.globals name with
           | some label =>
              [Instr.other s!"    la t1, {label}", Instr.other "    lw t0, 0(t1)"]
           | none =>
              [Instr.other s!"    # ERROR: Unknown variable {name}",
               Instr.other "    li t0, 0"]))
  | Expression.BinaryExpression op l r =>
      genExpr ctx l ++
      [Instr.addiSp (-4), Instr.other "    sw t0, 0(sp)  # Push left"] ++
      genExpr ctx r ++
      [Instr.other "    mv t1, t0",
       Instr.other "    lw t0, 0(sp)  # Pop left",
       Instr.addiSp 4] ++
      binOpInstrs op
  | Expression.UnaryExpression op operand =>
      genExpr ctx operand ++
      (if op = "-" then [Instr.other "    neg t0, t0"]
       else if op = "!" then [Instr.other "    seqz t0, t0"]
       else [])
  | Expression.DotExpression left fieldId =>
      genExpr ctx left ++
      [Instr.other "    mv t2, t0  # Save struct pointer"] ++
      (match get_struct_type ctx.type_environment left with
       | some sname =>
          (match lookupA ctx.structs sname with
           | some layout =>
              (match lookupA layout.fields fieldId with
               | some offset =>
                  [Instr.other s!"    lw t0, {offset}(t2)  # Load field {fieldId}"]
               | none =>
                  [Instr.other
                     s!"    # ERROR: Field {fieldId} not found in struct {sname}",
                   Instr.other "    li t0, 0"])
           | none =>
              [Instr.other
                 s!"    lw t0, 0(t2)  # Load field {fieldId} (unknown struct type)"])
       | none =>
          [Instr.other
             s!"    lw t0, 0(t2)  # Load field {fieldId} (unknown struct type)"])
  | Expression.InvocationExpression fname args =>
      let temp := args.length * 4
      (if temp > 0 then [Instr.addiSp (-(temp : Int))] else []) ++
      genArgs ctx 0 args ++
      argRegMoves (min args.length 8) ++
      (if temp > 0 then [Instr.addiSp (temp : Int)] else []) ++
      [Instr.other s!"    jal {fname}", Instr.other "    mv t0, a0"]
  | Expression.NewExpression sname =>
      let size :=
        match lookupA ctx.structs sname with
        | some layout => layout.size
        | none => 4
      [Instr.other s!"    li a0, {size}",
       Instr.other "    jal sbrk",
       Instr.other "    mv t0, a0"]

/-- The argument loop of `visit_invocation_expression`: each argument is
evaluated (left-to-right) then stored at slot `i` of the staging buffer. -/
def genArgs (ctx : CGCtx) (i : Nat) : List Expression → List Instr
  | [] => []
  | a :: rest =>
      genExpr ctx a ++ [Instr.other s!"    sw t0, {i*4}(sp)"] ++
      genArgs ctx (i+1) rest

end

/-- The `_generate_lvalue_address`: address of the assignment target in `t0`. -/
def generate_lvalue_address (ctx : CGCtx) : LValue → List Instr
  | LValue.LValueID name =>
      (match lookupA ctx.locals name with
       | some offset => [Instr.other s!"    addi t0, fp, {offset}"]
       | none =>
          (match lookupA ctx.globals name with
           | some label => [Instr.other s!"    la t0, {label}"]
           | none => []))
  | LValue.LValueDot left fieldId =>
      let ptr :=
        match left with
        | LValue.LValueID name =>
            (match lookupA ctx.locals name with
             | some offset =>
                [Instr.other s!"    lw t0, {offset}(fp)  # Load struct pointer"]
             | none =>
                (match lookupA ctx.globals name with
                 | some label =>
                    [Instr.other s!"    la t1, {label}",
                     Instr.other "    lw t0, 0(t1)  # Load struct pointer"]
                 | none => []))
        | LValue.LValueDot l2 f2 =>
            generate_lvalue_address ctx (LValue.LValueDot l2 f2)
      let fieldPart : Option (List Instr) :=
        match left with
        | LValue.LValueID var_name =>
            (match lookupA ctx.type_environment var_name with
             | some (Ty.StructType sname) =>
                (match lookupA ctx.structs sname with
                 | some layout =>
                    (match lookupA layout.fields fieldId with
                     | some offset =>
                        some [Instr.other
                          s!"    addi t0, t0, {offset}  # Add field offset for {fieldId}"]
                     | none => none)
                 | none => none)
             | _ => none)
        | _ => none
      ptr ++
        (match fieldPart with
         | some instrs => instrs
         | none =>
            [Instr.other s!"    # Field {fieldId} address (offset unknown)"])

/-- The shared explicit-return epilogue of `visit_return_statement` and
`visit_return_empty_statement`. -/
def epilogueRestore (localsSize : Nat) : List Instr :=
  (if localsSize > 0 then [Instr.addiSp (localsSize : Int)] else []) ++
  [Instr.other "    lw fp, 0(sp)", Instr.other "    lw ra, 4(sp)",
   Instr.addiSp 8]

mutual

/-- The statement visitors of the generator, threading the label counter. -/
def genStmt (ctx : CGCtx) (lc : Nat) : Statement → List Instr × Nat
  | Statement.BlockStatement ss => genStmts ctx lc ss
  | Statement.AssignmentStatement target source =>
      (genExpr ctx source ++ [Instr.other "    mv t1, t0  # Save result"] ++
       generate_lvalue_address ctx target ++ [Instr.other "    sw t1, 0(t0)"],
       lc)
  | Statement.PrintStatement e =>
      (genExpr ctx e ++
       [Instr.other "    mv a0, t0", Instr.other "    jal print_int"], lc)
  | Statement.PrintLnStatement e =>
      (genExpr ctx e ++
       [Instr.other "    mv a0, t0", Instr.other "    jal print_int",
        Instr.other "    li a0, \x27\\n\x27", Instr.other "    jal print_char"],
       lc)
  | Statement.ConditionalStatement guard then_block else_block =>
      let elseL := s!"else{lc}"
      let endL := s!"endif{lc + 1}"
      let tr := genStmt ctx (lc + 2) then_block
      let er :=
        match else_block with
        | some e => if hasStatements e then genStmt ctx tr.2 e else ([], tr.2)
        | none => ([], tr.2)
      (genExpr ctx guard ++
       [Instr.other s!"    beq t0, zero, {elseL}"] ++
       tr.1 ++
       [Instr.other s!"    j {endL}", Instr.other s!"{elseL}:"] ++
       er.1 ++
       [Instr.other s!"{endL}:"], er.2)
  | Statement.WhileStatement guard body =>
      let startL := s!"while_start{lc}"
      let endL := s!"while_end{lc + 1}"
      let br := genStmt ctx (lc + 2) body
      ([Instr.other s!"{startL}:"] ++
       genExpr ctx guard ++
       [Instr.other s!"    beq t0, zero, {endL}"] ++
       br.1 ++
       [Instr.other s!"    j {startL}", Instr.other s!"{endL}:"], br.2)
  | Statement.DeleteStatement e => (genExpr ctx e, lc)
  | Statement.ReturnStatement oe =>
      -- the front end always builds a value-return with an expression; a
      -- `none` here would fault in the source, so it contributes no code
      let ec := match oe with | some e => genExpr ctx e | none => []
      (ec ++ [Instr.other "    mv a0, t0"] ++
       epilogueRestore ctx.current_locals_size ++
       (if ctx.current_function = some "main" then [Instr.other "    jal exit"]
        else [Instr.other "    jr ra"]), lc)
  | Statement.ReturnEmptyStatement =>
      (epilogueRestore ctx.current_locals_size ++
       (if ctx.current_function = some "main"
        then [Instr.other "    li a0, 0", Instr.other "    jal exit"]
        else [Instr.other "    jr ra"]), lc)
  | Statement.InvocationStatement e => (genExpr ctx e, lc)

/-- The per-body statement loop of the generator. -/
def genStmts (ctx : CGCtx) (lc : Nat) : List Statement → List Instr × Nat
  | [] => ([], lc)
  | s :: rest =>
      let r := genStmt ctx lc s
      let r2 := genStmts ctx r.2 rest
      (r.1 ++ r2.1, r2.2)

end

/-! ### visit_function and visit_program of the generator -/

/-- The frame-offset loops of `visit_function`: each parameter, then each
local, gets the next negative offset from `fp`; the running offset also
totals the reserved size. -/
def buildLocals (decls : List Declaration) (current_offset : Nat)
    (acc : List (String × Int)) : List (String × Int) × Nat :=
  match decls with
  | [] => (acc, current_offset)
  | d :: rest =>
      let off := current_offset + type_size d.type
      buildLocals rest off (dictInsert acc d.name (-(off : Int)))

/-- The parameter-spill loop: `sw a{i}` into the frame slot, only for the
first eight parameters. -/
def paramSaves (localsMap : List (String × Int)) (i : Nat) :
    List Declaration → List Instr
  | [] => []
  | p :: rest =>
      let off := (lookupA localsMap p.name).getD 0
      (if i < 8 then [Instr.other s!"    sw a{i}, {off}(fp)"] else []) ++
      paramSaves localsMap (i + 1) rest

def isReturnLike : Statement → Bool
  | Statement.ReturnStatement _ => true
  | Statement.ReturnEmptyStatement => true
  | _ => false

/-- The generator appends an implicit epilogue iff the body is empty or
its last statement is not a return. -/
def implicitEpilogueNeeded (body : List Statement) : Bool :=
  match body.getLast? with
  | none => true
  | some s => !isReturnLike s

def mainImplicitEpilogue (total : Nat) : List Instr :=
  [Instr.other "    # Implicit return from main"] ++
  (if total > 0 then [Instr.addiSp (total : Int)] else []) ++
  [Instr.other "    lw fp, 0(sp)", Instr.other "    lw ra, 4(sp)",
   Instr.addiSp 8, Instr.other "    li a0, 0", Instr.other "    jal exit"]

def otherImplicitEpilogue (total : Nat) : List Instr :=
  [Instr.other "    # Implicit return"] ++
  (if total > 0 then [Instr.addiSp (total : Int)] else []) ++
  [Instr.other "    lw fp, 0(sp)", Instr.other "    lw ra, 4(sp)",
   Instr.addiSp 8, Instr.other "    jr ra"]

/-- Generator state fixed for the whole program. -/
structure CGProgCtx where
  structs : List (String × StructLayout)
  globals : List (String × String)
  read : Bool

/-- The `visit_function`: emits label, prologue, optional input-handle save
for `main`, locals allocation, parameter spills, the body, the implicit
epilogue when needed and a blank separator; updates the persistent type
environment (inserting the function's names, then deleting them at the
end) and the label counter. -/
def genFunction (pctx : CGProgCtx) (env : List (String × Ty)) (lc : Nat)
    (func : Function) : List Instr × List (String × Ty) × Nat :=
  let pl := buildLocals func.params 0 []
  let ll := buildLocals func.locals pl.2 pl.1
  let localsMap := ll.1
  let total := ll.2
  let localEnvNames := (func.params ++ func.locals).map (fun d => d.name)
  let env2 := (func.params ++ func.locals).foldl
                (fun e d => dictInsert e d.name d.type) env
  let ctx : CGCtx :=
    { structs := pctx.structs, globals := pctx.globals, locals := localsMap,
      type_environment := env2, current_function := some func.name,
      current_locals_size := total }
  let br := genStmts ctx lc func.body
  let fname := func.name
  let out :=
    [Instr.other s!"{fname}:"] ++
    [Instr.addiSp (-8), Instr.other "    sw ra, 4(sp)",
     Instr.other "    sw fp, 0(sp)", Instr.other "    addi fp, sp, 0"] ++
    (if fname = "main" ∧ pctx.read then
       [Instr.other "    # Save input filename", Instr.other "    lw t0, 4(a1)",
        Instr.other "    la t1, input_file_ptr", Instr.other "    sw t0, 0(t1)"]
     else []) ++
    (if total > 0 then [Instr.addiSp (-(total : Int))] else []) ++
    paramSaves localsMap 0 func.params ++
    br.1 ++
    (if implicitEpilogueNeeded func.body then
       (if fname = "main" then mainImplicitEpilogue total
        else otherImplicitEpilogue total)
     else []) ++
    [Instr.other ""]
  let envOut := localEnvNames.foldl (fun e k => dictErase e k) env2
  (out, envOut, br.2)

mutual

/-- The `_check_for_read` on expressions. -/
def check_expr_read : Expression → Bool
  | Expression.ReadExpression => true
  | Expression.BinaryExpression _ l r => check_expr_read l || check_expr_read r
  | Expression.UnaryExpression _ o => check_expr_read o
  | Expression.DotExpression l _ => check_expr_read l
  | Expression.InvocationExpression _ args => check_exprs_read args
  | _ => false

def check_exprs_read : List Expression → Bool
  | [] => false
  | e :: rest => check_expr_read e || check_exprs_read rest

end

mutual

/-- The `_check_for_read` on statements. -/
def check_stmt_read : Statement → Bool
  | Statement.AssignmentStatement _ source => check_expr_read source
  | Statement.BlockStatement ss => check_stmts_read ss
  | Statement.ConditionalStatement g t e =>
      check_expr_read g || check_stmt_read t ||
      (match e with | some s => check_stmt_read s | none => false)
  | Statement.WhileStatement g b => check_expr_read g || check_stmt_read b
  | Statement.PrintStatement e => check_expr_read e
  | Statement.PrintLnStatement e => check_expr_read e
  | Statement.ReturnStatement oe =>
      (match oe with | some e => check_expr_read e | none => false)
  | Statement.DeleteStatement e => check_expr_read e
  | Statement.InvocationStatement e => check_expr_read e
  | Statement.ReturnEmptyStatement => false

def check_stmts_read : List Statement → Bool
  | [] => false
  | s :: rest => check_stmt_read s || check_stmts_read rest

end

/-- The `_check_for_read` over the whole program. -/
def check_for_read (p : Program) : Bool :=
  p.functions.any (fun f => f.body.any check_stmt_read)

/-- The function loop at the end of `visit_program`, threading the type
environment and the label counter. -/
def genFunctions (pctx : CGProgCtx) (env : List (String × Ty)) (lc : Nat) :
    List Function → List Instr × List (String × Ty) × Nat
  | [] => ([], env, lc)
  | f :: rest =>
      let r := genFunction pctx env lc f
      let r2 := genFunctions pctx r.2.1 r.2.2 rest
      (r.1 ++ r2.1, r2.2)

/-- The data-section lines for global variables. -/
def globalDataLines : List Declaration → List Instr
  | [] => []
  | d :: rest =>
      let nm := d.name
      let size := type_size d.type
      Instr.other s!"global_{nm}: .space {size}" :: globalDataLines rest

/-- The `visit_program` of the generator: struct layouts, global type
environment, headers and imports, data section, then all functions. -/
def genProgram (p : Program) : List Instr :=
  let structsL := p.types.foldl
                    (fun m t => dictInsert m t.name (calculate_struct_layout t)) []
  let env0 := p.declarations.foldl (fun e d => dictInsert e d.name d.type) []
  let rd := check_for_read p
  let globalsMap := p.declarations.foldl
                      (fun m d => dictInsert m d.name ("global_" ++ d.name)) []
  let pctx : CGProgCtx := { structs := structsL, globals := globalsMap, read := rd }
  [Instr.other ".globl main", Instr.other ".import berkeley_utils.s"] ++
  (if rd then [Instr.other ".import read_int.s"] else []) ++
  [Instr.other "", Instr.other ".data"] ++
  (if rd then [Instr.other "input_file_ptr: .space 4"] else []) ++
  globalDataLines p.declarations ++
  [Instr.other "", Instr.other ".text", Instr.other ""] ++
  (genFunctions pctx env0 0 p.functions).1

/-- The `get_code`, as the list of emitted text lines. -/
def outputLines (p : Program) : List String :=
  (genProgram p).map Instr.render

/-! ## Lemma kit for the association-list dicts -/

theorem lookupA_eq_none {α : Type} {m : List (String × α)} {k : String} :
    lookupA m k = none ↔ ∀ p ∈ m, p.1 ≠ k := by
  simp [lookupA, List.find?_eq_none]

theorem dictInsert_of_none {α : Type} {m : List (String × α)} {k : String}
    (v : α) (h : lookupA m k = none) : dictInsert m k v = m ++ [(k, v)] := by
  simp [dictInsert, h]

theorem lookupA_append_of_none {α : Type} {m1 m2 : List (String × α)}
    {k : String} (h : lookupA m1 k = none) :
    lookupA (m1 ++ m2) k = lookupA m2 k := by
  have hf : m1.find? (fun p => p.1 = k) = none := by
    cases hfind : m1.find? (fun p => p.1 = k) with
    | none => rfl
    | some p => simp [lookupA, hfind] at h
  simp [lookupA, List.find?_append, hf]

/-! ## C1: word-sized sequential struct layout -/

/-- Size of every type node is one word. -/
theorem type_size_eq_four (t : Ty) : type_size t = 4 := by
  cases t <;> rfl

/-- The layout predicted by the claim: each field at the running offset,
advancing one word per field. -/
def expectedOffsets (off : Nat) : List Declaration → List (String × Nat)
  | [] => []
  | f :: rest => (f.name, off) :: expectedOffsets (off + 4) rest

theorem layoutFields_spec (fs : List Declaration) (offset : Nat)
    (acc : List (String × Nat))
    (hacc : ∀ f ∈ fs, lookupA acc f.name = none)
    (hnd : (fs.map Declaration.name).Nodup) :
    layoutFields fs offset acc =
      (acc ++ expectedOffsets offset fs, offset + 4 * fs.length) := by
  induction fs generalizing offset acc with
  | nil => simp [layoutFields, expectedOffsets]
  | cons f rest ih =>
      have hf : lookupA acc f.name = none := hacc f (List.mem_cons_self f rest)
      have hins : dictInsert acc f.name offset = acc ++ [(f.name, offset)] :=
        dictInsert_of_none offset hf
      have hnd2 : (rest.map Declaration.name).Nodup := (List.nodup_cons.mp hnd).2
      have hne : ∀ g ∈ rest, g.name ≠ f.name := by
        intro g hg hgf
        exact (List.nodup_cons.mp hnd).1 (hgf ▸ List.mem_map_of_mem Declaration.name hg)
      have hacc2 : ∀ g ∈ rest, lookupA (acc ++ [(f.name, offset)]) g.name = none := by
        intro g hg
        have h1 : lookupA acc g.name = none :=
          hacc g (List.mem_cons_of_mem f hg)
        rw [lookupA_append_of_none h1]
        rw [lookupA_eq_none]
        intro p hp
        simp at hp
        rw [hp]
        intro hcon
        exact hne g hg hcon.symm
      have hrec := ih (offset + type_size f.type) (acc ++ [(f.name, offset)]) hacc2 hnd2
      rw [type_size_eq_four] at hrec
      simp only [layoutFields, hins, type_size_eq_four, hrec, expectedOffsets,
        Prod.mk.injEq, List.append_assoc, List.singleton_append, List.length_cons]
      exact ⟨trivial, by omega⟩

theorem expectedOffsets_get? (fs : List Declaration) (off i : Nat)
    (h : i < fs.length) :
    (expectedOffsets off fs).get? i =
      some ((fs.get ⟨i, h⟩).name, off + 4 * i) := by
  induction fs generalizing off i with
  | nil => simp at h
  | cons f rest ih =>
      cases i with
      | zero => simp [expectedOffsets]
      | succ j =>
          have hj : j < rest.length := by simpa using h
          have ihh := ih (off + 4) j hj
          simp only [expectedOffsets, List.get?_cons_succ, ihh,
            Option.some.injEq, Prod.mk.injEq]
          exact ⟨rfl, by omega⟩

/-- C1: for a struct declaration whose field names are distinct (the
invariant the analyzer enforces), the Layout Calculator assigns the i-th
field (whatever its kind) offset 4*i bytes — so the first field sits at 0
and each next field one machine word later — and the struct's total size
is 4n bytes for n fields. -/
theorem struct_layout_word_offsets (tdecl : TypeDeclaration)
    (hnd : (tdecl.fields.map Declaration.name).Nodup) :
    (calculate_struct_layout tdecl).size = 4 * tdecl.fields.length ∧
    ∀ i (h : i < tdecl.fields.length),
      (calculate_struct_layout tdecl).fields.get? i =
        some ((tdecl.fields.get ⟨i, h⟩).name, 4 * i) := by
  have hspec := layoutFields_spec tdecl.fields 0 [] (by intro f _; rfl) hnd
  constructor
  · simp [calculate_struct_layout, hspec]
  · intro i h
    simp only [calculate_struct_layout, hspec]
    have := expectedOffsets_get? tdecl.fields 0 i h
    simpa using this

/-- A struct mixing an Int field, a Bool field and a self-referential
struct field, for concrete evaluation. -/
def nodeDecl : TypeDeclaration :=
  { name := "Node",
    fields := [ { name := "next", type := Ty.StructType "Node" },
                { name := "value", type := Ty.IntType },
                { name := "flag", type := Ty.BoolType } ] }

theorem struct_layout_word_offsets_witness :
    (nodeDecl.fields.map Declaration.name).Nodup ∧
    ((calculate_struct_layout nodeDecl).size = 4 * nodeDecl.fields.length ∧
     ∀ i (h : i < nodeDecl.fields.length),
       (calculate_struct_layout nodeDecl).fields.get? i =
         some ((nodeDecl.fields.get ⟨i, h⟩).name, 4 * i)) :=
  ⟨by decide, struct_layout_word_offsets nodeDecl (by decide)⟩

/-! ## C2: sequential struct registration, forward references rejected,
self-references permitted -/

theorem lookupA_map_decls_eq_none {ts : List TypeDeclaration} {s : String}
    (h : s ∉ ts.map TypeDeclaration.name) :
    lookupA (ts.map (fun t => (t.name, t))) s = none := by
  rw [lookupA_eq_none]
  intro p hp
  simp only [List.mem_map] at hp
  obtain ⟨t, ht, rfl⟩ := hp
  intro hcon
  exact h (hcon ▸ List.mem_map_of_mem TypeDeclaration.name ht)

/-- Under fresh, duplicate-free names, registration appends each struct
in declaration order, and the visit of the i-th struct sees exactly the
registered prefix through itself. -/
theorem registerStructs_fresh (ts : List TypeDeclaration)
    (structs : List (String × TypeDeclaration))
    (hfresh : ∀ t ∈ ts, lookupA structs t.name = none)
    (hnd : (ts.map TypeDeclaration.name).Nodup) :
    (registerStructs structs ts).1 =
      structs ++ ts.map (fun t => (t.name, t)) := by
  induction ts generalizing structs with
  | nil => simp [registerStructs]
  | cons t rest ih =>
      have hf : lookupA structs t.name = none := hfresh t (List.mem_cons_self t rest)
      have hk : hasKey structs t.name = false := by simp [hasKey, hf]
      have hins : dictInsert structs t.name t = structs ++ [(t.name, t)] :=
        dictInsert_of_none t hf
      have hnd2 : (rest.map TypeDeclaration.name).Nodup := (List.nodup_cons.mp hnd).2
      have hfresh2 : ∀ g ∈ rest, lookupA (structs ++ [(t.name, t)]) g.name = none := by
        intro g hg
        rw [lookupA_append_of_none (hfresh g (List.mem_cons_of_mem t hg))]
        rw [lookupA_eq_none]
        intro p hp
        simp at hp
        rw [hp]
        intro hcon
        have hgt : g.name = t.name := hcon.symm
        exact (List.nodup_cons.mp hnd).1
          (hgt ▸ List.mem_map_of_mem TypeDeclaration.name hg)
      have := ih (structs ++ [(t.name, t)]) hfresh2 hnd2
      simp only [registerStructs, hk, Bool.false_eq_true, if_false, hins, this]
      simp

/-- Decomposition of the registration diagnostics: the i-th struct's
visit runs against the prefix registered so far (itself included). -/
theorem registerStructs_diag_decomp (ts : List TypeDeclaration)
    (structs : List (String × TypeDeclaration))
    (hfresh : ∀ t ∈ ts, lookupA structs t.name = none)
    (hnd : (ts.map TypeDeclaration.name).Nodup)
    (i : Nat) (hi : i < ts.length) :
    ∃ pre post, (registerStructs structs ts).2 =
      pre ++
      visit_type_declaration
        (structs ++ ((ts.take (i+1)).map (fun t => (t.name, t))))
        (ts.get ⟨i, hi⟩) ++
      post := by
  induction ts generalizing structs i with
  | nil => simp at hi
  | cons t rest ih =>
      have hf : lookupA structs t.name = none := hfresh t (List.mem_cons_self t rest)
      have hk : hasKey structs t.name = false := by simp [hasKey, hf]
      have hins : dictInsert structs t.name t = structs ++ [(t.name, t)] :=
        dictInsert_of_none t hf
      have hnd2 : (rest.map TypeDeclaration.name).Nodup := (List.nodup_cons.mp hnd).2
      have hfresh2 : ∀ g ∈ rest, lookupA (structs ++ [(t.name, t)]) g.name = none := by
        intro g hg
        rw [lookupA_append_of_none (hfresh g (List.mem_cons_of_mem t hg))]
        rw [lookupA_eq_none]
        intro p hp
        simp at hp
        rw [hp]
        intro hcon
        have hgt : g.name = t.name := hcon.symm
        exact (List.nodup_cons.mp hnd).1
          (hgt ▸ List.mem_map_of_mem TypeDeclaration.name hg)
      cases i with
      | zero =>
          refine ⟨[], (registerStructs (structs ++ [(t.name, t)]) rest).2, ?_⟩
          simp [registerStructs, hk, hins]
      | succ j =>
          have hj : j < rest.length := by simpa using hi
          obtain ⟨pre, post, hdec⟩ := ih (structs ++ [(t.name, t)]) hfresh2 hnd2 j hj
          refine ⟨visit_type_declaration (structs ++ [(t.name, t)]) t ++ pre, post, ?_⟩
          simp only [registerStructs, hk, Bool.false_eq_true, if_false, hins]
          simp only [List.take_succ_cons, List.map_cons, List.get_cons_succ]
          rw [hdec]
          simp [List.append_assoc]

/-- A field referencing an unregistered, non-self struct name is flagged
by `fieldChecks`. -/
theorem fieldChecks_flags_unregistered (structs : List (String × TypeDeclaration))
    (struct_name : String) (fields : List Declaration) (seen : List String)
    (f : Declaration) (hf : f ∈ fields) (sname : String)
    (hty : f.type = Ty.StructType sname) (hself : sname ≠ struct_name)
    (hreg : hasKey structs sname = false) :
    Diag.undefinedStructField sname ∈ fieldChecks structs struct_name seen fields := by
  induction fields generalizing seen with
  | nil => simp at hf
  | cons g rest ih =>
      rcases List.mem_cons.mp hf with hgf | hmem
      · have hft : TypeOfTy structs (Ty.StructType sname) = none := by
          simp [TypeOfTy, hreg]
        simp only [fieldChecks, List.mem_append]
        refine Or.inl (Or.inr ?_)
        rw [← hgf, hty]
        simp [hft, hself, hreg]
      · simp only [fieldChecks, List.mem_append]
        exact Or.inr (ih _ hmem)

/-- A struct declaration with duplicate-free field names, each of whose
struct-reference fields names either the struct itself or an
already-registered struct, produces no diagnostic at all. -/
theorem fieldChecks_silent (structs : List (String × TypeDeclaration))
    (struct_name : String) :
    ∀ (fields : List Declaration) (seen : List String),
      (fields.map Declaration.name).Nodup →
      (∀ f ∈ fields, f.name ∉ seen) →
      (∀ f ∈ fields, ∀ sname, f.type = Ty.StructType sname →
        sname = struct_name ∨ hasKey structs sname = true) →
      fieldChecks structs struct_name seen fields = []
  | [], _, _, _, _ => rfl
  | f :: rest, seen, hnd, hseen, hrefs => by
      have hfs : f.name ∉ seen := hseen f (List.mem_cons_self f rest)
      have hrec : fieldChecks structs struct_name (f.name :: seen) rest = [] := by
        refine fieldChecks_silent structs struct_name rest (f.name :: seen)
          (List.nodup_cons.mp hnd).2 ?_ ?_
        · intro g hg hcon
          rcases List.mem_cons.mp hcon with h1 | h1
          · exact (List.nodup_cons.mp hnd).1
              (h1 ▸ List.mem_map_of_mem Declaration.name hg)
          · exact hseen g (List.mem_cons_of_mem f hg) h1
        · intro g hg
          exact hrefs g (List.mem_cons_of_mem f hg)
      cases hft : f.type with
      | IntType => simp [fieldChecks, hfs, hft, hrec]
      | BoolType => simp [fieldChecks, hfs, hft, hrec]
      | StructType sname =>
          rcases hrefs f (List.mem_cons_self f rest) sname hft with hs | hs
          · simp [fieldChecks, hfs, hft, hs, hrec]
          · simp [fieldChecks, hfs, hft, hs, hrec, TypeOfTy]

/-- C2: with duplicate-free struct names, semantic analysis registers the
structs one at a time in declaration order; a field of the i-th struct
whose type names a struct not among the first i+1 declarations (so one
declared later, or never) yields an undefined-struct diagnostic in the
registration pass, while a struct whose reference fields name only itself
or already-registered structs (self-reference included) yields no
diagnostic from its visit. -/
theorem struct_registration_order (ts : List TypeDeclaration)
    (hnd : (ts.map TypeDeclaration.name).Nodup) :
    (registerStructs [] ts).1 = ts.map (fun t => (t.name, t)) ∧
    (∀ i (hi : i < ts.length) (f : Declaration), f ∈ (ts.get ⟨i, hi⟩).fields →
       ∀ sname, f.type = Ty.StructType sname →
       sname ≠ (ts.get ⟨i, hi⟩).name →
       sname ∉ (ts.take (i+1)).map TypeDeclaration.name →
       Diag.undefinedStructField sname ∈ (registerStructs [] ts).2) ∧
    (∀ structs tdecl, ((tdecl.fields.map Declaration.name).Nodup) →
       (∀ f ∈ tdecl.fields, ∀ sname, f.type = Ty.StructType sname →
          sname = tdecl.name ∨ hasKey structs sname = true) →
       visit_type_declaration structs tdecl = []) := by
  refine ⟨?_, ?_, ?_⟩
  · exact registerStructs_fresh ts [] (by intro t _; rfl) hnd
  · intro i hi f hf sname hty hself hlater
    obtain ⟨pre, post, hdec⟩ :=
      registerStructs_diag_decomp ts [] (by intro t _; rfl) hnd i hi
    rw [hdec]
    simp only [List.nil_append, List.mem_append]
    refine Or.inl (Or.inr ?_)
    refine fieldChecks_flags_unregistered _ _ _ _ f hf sname hty hself ?_
    simp only [hasKey]
    rw [lookupA_map_decls_eq_none hlater]
    rfl
  · intro structs tdecl hndf hrefs
    exact fieldChecks_silent structs tdecl.name tdecl.fields [] hndf
      (by intro f _ h; simp at h) hrefs

/-- Two structs where A references itself and the later-declared B. -/
def tsForward : List TypeDeclaration :=
  [ { name := "A",
      fields := [ { name := "s", type := Ty.StructType "A" },
                  { name := "l", type := Ty.StructType "B" } ] },
    { name := "B",
      fields := [ { name := "a", type := Ty.StructType "A" } ] } ]

theorem struct_registration_order_witness :
    (tsForward.map TypeDeclaration.name).Nodup ∧
    Diag.undefinedStructField "B" ∈ (registerStructs [] tsForward).2 :=
  ⟨by decide,
   (struct_registration_order tsForward (by decide)).2.1 0 (by decide)
     { name := "l", type := Ty.StructType "B" } (by decide) "B" rfl
     (by decide) (by decide)⟩

/-! ## C3: the return-path check inspects only the body's last statement -/

theorem binOpCheck_no_missingReturn (op : String) (lt rt : MiniTy)
    (d : List Diag) (hd : Diag.missingReturn ∉ d) :
    Diag.missingReturn ∉ (binOpCheck op lt rt d).2 := by
  unfold binOpCheck
  split_ifs <;> simp_all

mutual

theorem exprType_no_missingReturn (ctx : Ctx) :
    ∀ e : Expression, Diag.missingReturn ∉ (exprType ctx e).2
  | Expression.IntegerExpression _ => by simp [exprType]
  | Expression.TrueExpression => by simp [exprType]
  | Expression.FalseExpression => by simp [exprType]
  | Expression.NullExpression => by simp [exprType]
  | Expression.ReadExpression => by simp [exprType]
  | Expression.IdentifierExpression name => by
      simp only [exprType]
      split <;> simp
  | Expression.DotExpression left fieldId => by
      have ih := exprType_no_missingReturn ctx left
      simp only [exprType]
      repeat' split
      all_goals simp_all
  | Expression.UnaryExpression op operand => by
      have ih := exprType_no_missingReturn ctx operand
      simp only [exprType]
      repeat' split
      all_goals simp_all
  | Expression.BinaryExpression op l r => by
      have ihl := exprType_no_missingReturn ctx l
      have ihr := exprType_no_missingReturn ctx r
      simp only [exprType]
      split
      all_goals first
        | exact binOpCheck_no_missingReturn _ _ _ _ (by simp_all)
        | simp_all
  | Expression.InvocationExpression fname args => by
      rcases hl : lookupA ctx.functions fname with _ | fn
      · simp [exprType, hl]
      · have ih := argChecks_no_missingReturn ctx args fn.params
        simp only [exprType, hl, List.mem_append]
        rintro (hc | ha)
        · revert hc
          split_ifs <;> simp
        · exact ih ha
  | Expression.NewExpression sname => by
      simp only [exprType]
      split_ifs <;> simp

theorem argChecks_no_missingReturn (ctx : Ctx) :
    ∀ (args : List Expression) (params : List Declaration),
      Diag.missingReturn ∉ argChecks ctx args params
  | [], _ => by simp [argChecks]
  | _ :: _, [] => by simp [argChecks]
  | a :: restA, p :: restP => by
      have ih1 := exprType_no_missingReturn ctx a
      have ih2 := argChecks_no_missingReturn ctx restA restP
      simp only [argChecks, List.mem_append]
      rintro ((h | h) | h)
      · exact ih1 h
      · revert h
        repeat' split
        all_goals simp
      · exact ih2 h

end

theorem lvalueType_no_missingReturn (ctx : Ctx) :
    ∀ lv : LValue, Diag.missingReturn ∉ (lvalueType ctx lv).2
  | LValue.LValueID name => by
      simp only [lvalueType]
      split <;> simp
  | LValue.LValueDot left fieldId => by
      have ih := lvalueType_no_missingReturn ctx left
      simp only [lvalueType]
      repeat' split
      all_goals simp_all

mutual

theorem stmtCheck_no_missingReturn (ctx : Ctx) :
    ∀ s : Statement, Diag.missingReturn ∉ stmtCheck ctx s
  | Statement.BlockStatement ss => by
      have ih := stmtsCheck_no_missingReturn ctx ss
      simpa [stmtCheck] using ih
  | Statement.AssignmentStatement target source => by
      have ih1 := lvalueType_no_missingReturn ctx target
      have ih2 := exprType_no_missingReturn ctx source
      simp only [stmtCheck, List.mem_append]
      rintro ((h | h) | h)
      · exact ih1 h
      · exact ih2 h
      · revert h
        split_ifs <;> simp
  | Statement.ConditionalStatement guard tb eb => by
      have ihg := exprType_no_missingReturn ctx guard
      have iht := stmtCheck_no_missingReturn ctx tb
      rw [stmtCheck.eq_def]
      simp only [List.mem_append]
      rintro (((h | h) | h) | h)
      · exact ihg h
      · revert h
        repeat' split
        all_goals simp
      · exact iht h
      · revert h
        rcases eb with _ | e
        · simp
        · have ihe := stmtCheck_no_missingReturn ctx e
          show (Diag.missingReturn ∈
            if hasStatements e = true then stmtCheck ctx e else []) → False
          split_ifs <;> simp_all
  | Statement.WhileStatement guard body => by
      have ihg := exprType_no_missingReturn ctx guard
      have ihb := stmtCheck_no_missingReturn ctx body
      simp only [stmtCheck, List.mem_append]
      rintro ((h | h) | h)
      · exact ihg h
      · revert h
        repeat' split
        all_goals simp
      · exact ihb h
  | Statement.DeleteStatement e => by
      have ih := exprType_no_missingReturn ctx e
      simp only [stmtCheck, List.mem_append]
      rintro (h | h)
      · exact ih h
      · revert h
        repeat' split
        all_goals simp
  | Statement.InvocationStatement e => by
      have ih := exprType_no_missingReturn ctx e
      simpa [stmtCheck] using ih
  | Statement.PrintLnStatement e => by
      have ih := exprType_no_missingReturn ctx e
      simp only [stmtCheck, List.mem_append]
      rintro (h | h)
      · exact ih h
      · revert h
        split_ifs <;> simp
  | Statement.PrintStatement e => by
      have ih := exprType_no_missingReturn ctx e
      simp only [stmtCheck, List.mem_append]
      rintro (h | h)
      · exact ih h
      · revert h
        split_ifs <;> simp
  | Statement.ReturnEmptyStatement => by
      rcases hcf : ctx.current_function with _ | f
      · simp [stmtCheck, hcf]
      · simp only [stmtCheck, hcf]
        split_ifs <;> simp
  | Statement.ReturnStatement oe => by
      rcases hcf : ctx.current_function with _ | f
      · simp [stmtCheck, hcf]
      · rcases oe with _ | e
        · simp only [stmtCheck, hcf]
          split_ifs <;> simp
        · have ih := exprType_no_missingReturn ctx e
          simp only [stmtCheck, hcf, List.mem_append]
          rintro (h | h)
          · exact ih h
          · revert h
            split_ifs <;> simp

theorem stmtsCheck_no_missingReturn (ctx : Ctx) :
    ∀ ss : List Statement, Diag.missingReturn ∉ stmtsCheck ctx ss
  | [] => by simp [stmtsCheck]
  | s :: rest => by
      have ih1 := stmtCheck_no_missingReturn ctx s
      have ih2 := stmtsCheck_no_missingReturn ctx rest
      simp only [stmtsCheck, List.mem_append]
      rintro (h | h)
      · exact ih1 h
      · exact ih2 h

end

theorem defineVars_no_missingReturn (structs : List (String × TypeDeclaration))
    (dupD undefD : String → Diag)
    (hdup : ∀ n, dupD n ≠ Diag.missingReturn)
    (hundef : ∀ n, undefD n ≠ Diag.missingReturn) :
    ∀ (decls : List Declaration) (scope : List (String × Declaration)),
      Diag.missingReturn ∉ (defineVars structs dupD undefD scope decls).2
  | [], _ => by simp [defineVars]
  | p :: rest, scope => by
      have ih := defineVars_no_missingReturn structs dupD undefD hdup hundef rest
      simp only [defineVars, List.mem_append]
      rintro ((h1 | h2) | h3)
      · revert h1
        split_ifs with hs
        · intro hmem
          have hx : Diag.missingReturn = dupD p.name := by simpa using hmem
          exact hdup p.name hx.symm
        · unfold SymbolTable.define
          split_ifs
          simp
      · revert h2
        rcases p.type with _ | _ | sname
        · simp
        · simp
        · intro hmem
          have hred : Diag.missingReturn ∈
              (if TypeOfTy structs (Ty.StructType sname) = none ∧
                  ¬ hasKey structs sname = true
               then [undefD sname] else []) := hmem
          revert hred
          split_ifs with hc
          · intro hmem2
            have hx : Diag.missingReturn = undefD sname := by simpa using hmem2
            exact hundef sname hx.symm
          · simp
      · exact ih _ h3

/-- C3: for a function with a non-void declared return type whose body
ends in a conditional statement, the analyzer reports exactly one
missing-return diagnostic — the end-of-body check looks only at the last
statement, and no statement inside the body (in particular none of the
well-typed returns inside the conditional's branches) can contribute a
missing-return diagnostic. -/
theorem missing_return_on_trailing_conditional
    (structs : List (String × TypeDeclaration))
    (functionsMap : List (String × Function))
    (globals : List (String × Declaration)) (func : Function)
    (hret : TypeOfRet structs func.ret_type ≠ some MiniTy.VOID)
    (g : Expression) (tb : Statement) (eb : Option Statement)
    (hlast : func.body.getLast? = some (Statement.ConditionalStatement g tb eb)) :
    (analyzeFunction structs functionsMap globals func).count
      Diag.missingReturn = 1 := by
  unfold analyzeFunction
  simp only [List.count_append]
  have h1 : (defineVars structs Diag.duplicateParameter Diag.undefinedStructParam
      [] func.params).2.count Diag.missingReturn = 0 :=
    List.count_eq_zero.mpr
      (defineVars_no_missingReturn structs _ _ (by intro n h; cases h)
        (by intro n h; cases h) func.params [])
  have h2 : ∀ sc, (defineVars structs Diag.duplicateLocal Diag.undefinedStructLocal
      sc func.locals).2.count Diag.missingReturn = 0 := by
    intro sc
    exact List.count_eq_zero.mpr
      (defineVars_no_missingReturn structs _ _ (by intro n h; cases h)
        (by intro n h; cases h) func.locals sc)
  have h3 : ∀ c : Ctx, (stmtsCheck c func.body).count Diag.missingReturn = 0 := by
    intro c
    exact List.count_eq_zero.mpr (stmtsCheck_no_missingReturn c func.body)
  have h4 : ∀ (fns : List (String × Function))
      (scopes : List (List (String × Declaration))) (cf : Option Function),
      (returnCheckAtEnd ⟨structs, fns, scopes, cf⟩ func).count
        Diag.missingReturn = 1 := by
    intro fns scopes cf
    unfold returnCheckAtEnd
    rw [hlast]
    simp [hret]
  rw [h1, h2, h3, h4]

/-- A non-void function ending in a conditional both of whose branches
end in well-typed returns. -/
def condTailFunc : Function :=
  { name := "f", params := [], ret_type := RetTy.ReturnTypeReal Ty.IntType,
    locals := [],
    body := [Statement.ConditionalStatement Expression.TrueExpression
      (Statement.BlockStatement
        [Statement.ReturnStatement (some (Expression.IntegerExpression 1))])
      (some (Statement.BlockStatement
        [Statement.ReturnStatement (some (Expression.IntegerExpression 2))]))] }

theorem missing_return_on_trailing_conditional_witness :
    TypeOfRet [] condTailFunc.ret_type ≠ some MiniTy.VOID ∧
    (analyzeFunction [] [] [] condTailFunc).count Diag.missingReturn = 1 :=
  ⟨by decide,
   missing_return_on_trailing_conditional [] [] [] condTailFunc (by decide)
     Expression.TrueExpression _ _ rfl⟩

/-! ## C4: suppression of dependent checks on unresolved sub-expressions.
Binary and unary operators do suppress, but print/println compare the
(possibly missing) operand type against Int with `t != INT`, which fires
on an unresolved operand too — the claim fails there. -/

/-- An analysis context with no structs, functions or variables. -/
def emptyCtx : Ctx :=
  { structs := [], functions := [], scopes := [[], []], current_function := none }

/-- C4 counterexample: a println whose operand failed to resolve (an
undefined variable) nevertheless produces the print-requires-int
diagnostic, cascading on the earlier error. -/
theorem println_unresolved_cascades_counterexample :
    stmtCheck emptyCtx
      (Statement.PrintLnStatement (Expression.IdentifierExpression "x")) =
      [Diag.undefinedVariable "x", Diag.printRequiresInt] := by decide

/-- C4 (amended): a binary expression with an unresolved operand and a
unary expression with an unresolved operand skip the operator checks,
resolve to no type, and add no diagnostic beyond their operands'; print
and println, however, do not suppress: an unresolved operand still
triggers the print-requires-int diagnostic. -/
theorem unresolved_suppression_partial :
    (∀ (ctx : Ctx) (op : String) (e1 e2 : Expression),
       (exprType ctx e1).1 = none ∨ (exprType ctx e2).1 = none →
       exprType ctx (Expression.BinaryExpression op e1 e2) =
         (none, (exprType ctx e1).2 ++ (exprType ctx e2).2)) ∧
    (∀ (ctx : Ctx) (op : String) (e : Expression),
       (exprType ctx e).1 = none →
       exprType ctx (Expression.UnaryExpression op e) =
         (none, (exprType ctx e).2)) ∧
    (∀ (ctx : Ctx) (e : Expression),
       (exprType ctx e).1 = none →
       stmtCheck ctx (Statement.PrintLnStatement e) =
         (exprType ctx e).2 ++ [Diag.printRequiresInt] ∧
       stmtCheck ctx (Statement.PrintStatement e) =
         (exprType ctx e).2 ++ [Diag.printRequiresInt]) := by
  refine ⟨?_, ?_, ?_⟩
  · intro ctx op e1 e2 h
    rcases h with h1 | h1
    · simp only [exprType]
      simp [h1]
    · rcases h2 : (exprType ctx e1).1 with _ | lt
      · simp only [exprType]
        simp [h1, h2]
      · simp only [exprType]
        simp [h1, h2]
  · intro ctx op e h
    simp only [exprType]
    simp [h]
  · intro ctx e h
    constructor
    · simp only [stmtCheck]
      simp [h]
    · simp only [stmtCheck]
      simp [h]

theorem unresolved_suppression_partial_witness :
    (exprType emptyCtx (Expression.IdentifierExpression "x")).1 = none ∧
    exprType emptyCtx (Expression.BinaryExpression "+"
        (Expression.IdentifierExpression "x") (Expression.IntegerExpression 1)) =
      (none, (exprType emptyCtx (Expression.IdentifierExpression "x")).2 ++
        (exprType emptyCtx (Expression.IntegerExpression 1)).2) :=
  ⟨by decide,
   unresolved_suppression_partial.1 emptyCtx "+"
     (Expression.IdentifierExpression "x") (Expression.IntegerExpression 1)
     (Or.inl (by decide))⟩

/-! ## C5: a call with the wrong argument count.  Exactly one
wrong-number-of-arguments diagnostic is emitted for the call itself, but
the per-position checks on the zipped prefix still run and can add
argument-type diagnostics — the "no other diagnostics" part fails. -/

/-- A function of two Int parameters returning Int. -/
def fIntInt : Function :=
  { name := "f",
    params := [ { name := "a", type := Ty.IntType },
                { name := "b", type := Ty.IntType } ],
    ret_type := RetTy.ReturnTypeReal Ty.IntType, locals := [], body := [] }

/-- A context in which only `f` is registered. -/
def ctxF : Ctx :=
  { structs := [], functions := [("f", fIntInt)], scopes := [[], []],
    current_function := none }

/-- C5 counterexample: calling the two-Int-parameter `f` with the single
argument `true` yields the wrong-number diagnostic AND an argument-type
diagnostic for position 0, which does line up — two diagnostics for the
one call, not one. -/
theorem wrong_arg_count_extra_diag_counterexample :
    (exprType ctxF (Expression.InvocationExpression "f"
        [Expression.TrueExpression])).2 =
      [Diag.wrongNumberOfArguments "f", Diag.argumentTypeMismatch] := by decide

/-- C5 (amended): a call whose argument count differs from the callee's
parameter count contributes exactly one wrong-number-of-arguments
diagnostic, prepended to whatever the per-position zip checks of the
aligned argument prefix emit (which may include argument-type
diagnostics). -/
theorem wrong_arg_count_diag (ctx : Ctx) (fname : String)
    (args : List Expression) (fn : Function)
    (hfn : lookupA ctx.functions fname = some fn)
    (hcount : fn.params.length ≠ args.length) :
    exprType ctx (Expression.InvocationExpression fname args) =
      (TypeOfRet ctx.structs fn.ret_type,
       Diag.wrongNumberOfArguments fname :: argChecks ctx args fn.params) := by
  simp only [exprType, hfn]
  simp [hcount]

theorem wrong_arg_count_diag_witness :
    lookupA ctxF.functions "f" = some fIntInt ∧
    fIntInt.params.length ≠ [Expression.TrueExpression].length ∧
    exprType ctxF (Expression.InvocationExpression "f" [Expression.TrueExpression]) =
      (TypeOfRet ctxF.structs fIntInt.ret_type,
       Diag.wrongNumberOfArguments "f" ::
         argChecks ctxF [Expression.TrueExpression] fIntInt.params) :=
  ⟨rfl, by decide,
   wrong_arg_count_diag ctxF "f" [Expression.TrueExpression] fIntInt
     rfl (by decide)⟩

/-! ## C6: runtime-support import lines.

`visit_program` emits `.import berkeley_utils.s` unconditionally (the
source comments it as "required by read_int" but never guards it), and
guards only `.import read_int.s` behind the whole-program read scan —
so a program using no runtime construct still gets an import line. -/

def headChar (s : String) : Option Char := s.data.head?

def lastChar (s : String) : Option Char := s.data.getLast?

theorem headChar_append (a b : String) (c : Char)
    (h : headChar a = some c) : headChar (a ++ b) = some c := by
  unfold headChar at *
  rw [String.data_append]
  cases hd : a.data with
  | nil => rw [hd] at h; simp at h
  | cons x xs => rw [hd] at h; simp at h; simp [hd, h]

theorem lastChar_append (a b : String) (c : Char)
    (h : lastChar b = some c) : lastChar (a ++ b) = some c := by
  unfold lastChar at *
  rw [String.data_append, List.getLast?_append, h]
  rfl

/-- Classification of every line the generator emits inside the data and
text sections: a stack-pointer adjustment, the empty separator, an
indented instruction (four leading spaces), or a label (trailing colon).
No such line can be an import directive. -/
def bodyInstr (i : Instr) : Bool :=
  match i with
  | Instr.addiSp _ => true
  | Instr.other t =>
      t == "" || headChar t == some ' ' || lastChar t == some ':'

theorem bodyInstr_of_head_space (t : String) (h : headChar t = some ' ') :
    bodyInstr (Instr.other t) = true := by
  simp [bodyInstr, h]

theorem bodyInstr_of_last_colon (t : String) (h : lastChar t = some ':') :
    bodyInstr (Instr.other t) = true := by
  simp [bodyInstr, h]

theorem bodyInstr_ne_read_import (i : Instr) (hb : bodyInstr i = true) :
    i ≠ Instr.other ".import read_int.s" := by
  intro hcon
  subst hcon
  revert hb
  decide

def AllBody (l : List Instr) : Bool := l.all bodyInstr

theorem allBody_append (a b : List Instr) :
    AllBody (a ++ b) = (AllBody a && AllBody b) := by
  simp [AllBody, List.all_append]

theorem allBody_cons (i : Instr) (l : List Instr) :
    AllBody (i :: l) = (bodyInstr i && AllBody l) := by
  simp [AllBody]

theorem allBody_nil : AllBody [] = true := rfl

theorem allBody_not_mem_read_import (l : List Instr) (h : AllBody l = true) :
    Instr.other ".import read_int.s" ∉ l := by
  intro hmem
  simp only [AllBody, List.all_eq_true] at h
  exact bodyInstr_ne_read_import _ (h _ hmem) rfl

theorem allBody_ite {c : Prop} [Decidable c] {a b : List Instr}
    (ha : AllBody a = true) (hb : AllBody b = true) :
    AllBody (if c then a else b) = true := by
  by_cases h : c
  · rwa [if_pos h]
  · rwa [if_neg h]

theorem allBody_binOpInstrs (op : String) : AllBody (binOpInstrs op) = true := by
  delta binOpInstrs
  repeat' apply allBody_ite
  all_goals decide

theorem allBody_argRegMoves (n : Nat) : AllBody (argRegMoves n) = true := by
  simp only [AllBody, argRegMoves, List.all_eq_true]
  intro i hi
  simp only [List.mem_map] at hi
  obtain ⟨j, _, rfl⟩ := hi
  apply bodyInstr_of_head_space
  repeat' apply headChar_append
  decide

mutual

theorem allBody_genExpr (ctx : CGCtx) :
    ∀ e : Expression, AllBody (genExpr ctx e) = true
  | Expression.IntegerExpression v => by
      simp only [genExpr, AllBody, List.all_cons, List.all_nil, Bool.and_true]
      apply bodyInstr_of_head_space
      repeat' apply headChar_append
      decide
  | Expression.TrueExpression => by rfl
  | Expression.FalseExpression => by rfl
  | Expression.NullExpression => by rfl
  | Expression.ReadExpression => by rfl
  | Expression.IdentifierExpression name => by
      simp only [genExpr]
      rcases h1 : lookupA ctx.locals name with _ | off
      · rcases h2 : lookupA ctx.globals name with _ | label
        · simp only [AllBody, List.all_cons, List.all_nil, Bool.and_true]
          rw [Bool.and_eq_true]
          constructor
          · apply bodyInstr_of_head_space
            repeat' apply headChar_append
            decide
          · decide
        · simp only [AllBody, List.all_cons, List.all_nil, Bool.and_true]
          rw [Bool.and_eq_true]
          constructor
          · apply bodyInstr_of_head_space
            repeat' apply headChar_append
            decide
          · decide
      · simp only [AllBody, List.all_cons, List.all_nil, Bool.and_true]
        apply bodyInstr_of_head_space
        repeat' apply headChar_append
        decide
  | Expression.BinaryExpression op l r => by
      have ihl := allBody_genExpr ctx l
      have ihr := allBody_genExpr ctx r
      simp only [genExpr, allBody_append, ihl, ihr, allBody_binOpInstrs,
        Bool.and_true, Bool.true_and]
      decide
  | Expression.UnaryExpression op operand => by
      have ih := allBody_genExpr ctx operand
      simp only [genExpr, allBody_append, ih, Bool.true_and]
      repeat' apply allBody_ite
      all_goals decide
  | Expression.DotExpression left fieldId => by
      have ih := allBody_genExpr ctx left
      simp only [genExpr, allBody_append, ih, Bool.true_and]
      rw [Bool.and_eq_true]
      refine ⟨by decide, ?_⟩
      rcases h1 : get_struct_type ctx.type_environment left with _ | sname
      · simp only [AllBody, List.all_cons, List.all_nil, Bool.and_true]
        apply bodyInstr_of_head_space
        repeat' apply headChar_append
        decide
      · rcases h2 : lookupA ctx.structs sname with _ | layout
        · simp only [h2, AllBody, List.all_cons, List.all_nil, Bool.and_true]
          apply bodyInstr_of_head_space
          repeat' apply headChar_append
          decide
        · rcases h3 : lookupA layout.fields fieldId with _ | off
          · simp only [h2, h3, AllBody, List.all_cons, List.all_nil,
              Bool.and_true]
            rw [Bool.and_eq_true]
            constructor
            · apply bodyInstr_of_head_space
              repeat' apply headChar_append
              decide
            · decide
          · simp only [h2, h3, AllBody, List.all_cons, List.all_nil,
              Bool.and_true]
            apply bodyInstr_of_head_space
            repeat' apply headChar_append
            decide
  | Expression.InvocationExpression fname args => by
      have iha := allBody_genArgs ctx 0 args
      simp only [genExpr, allBody_append, iha, allBody_argRegMoves,
        Bool.and_true, Bool.true_and]
      rw [Bool.and_eq_true, Bool.and_eq_true]
      refine ⟨⟨?_, ?_⟩, ?_⟩
      · repeat' apply allBody_ite
        all_goals rfl
      · repeat' apply allBody_ite
        all_goals rfl
      · simp only [AllBody, List.all_cons, List.all_nil, Bool.and_true]
        rw [Bool.and_eq_true]
        constructor
        · apply bodyInstr_of_head_space
          repeat' apply headChar_append
          decide
        · decide
  | Expression.NewExpression sname => by
      simp only [genExpr, AllBody, List.all_cons, List.all_nil, Bool.and_true]
      rw [Bool.and_eq_true]
      refine ⟨?_, by decide⟩
      apply bodyInstr_of_head_space
      repeat' apply headChar_append
      decide

theorem allBody_genArgs (ctx : CGCtx) (i : Nat) :
    ∀ args : List Expression, AllBody (genArgs ctx i args) = true
  | [] => by rfl
  | a :: rest => by
      have ih1 := allBody_genExpr ctx a
      have ih2 := allBody_genArgs ctx (i + 1) rest
      simp only [genArgs, allBody_append, ih1, ih2, Bool.and_true, Bool.true_and]
      simp only [AllBody, List.all_cons, List.all_nil, Bool.and_true]
      apply bodyInstr_of_head_space
      repeat' apply headChar_append
      decide

end

theorem allBody_generate_lvalue_address (ctx : CGCtx) :
    ∀ lv : LValue, AllBody (generate_lvalue_address ctx lv) = true
  | LValue.LValueID name => by
      rw [generate_lvalue_address.eq_def]
      rcases h1 : lookupA ctx.locals name with _ | off
      · rcases h2 : lookupA ctx.globals name with _ | label
        · simp [h1, h2, AllBody]
        · simp only [h1, h2, AllBody, List.all_cons, List.all_nil, Bool.and_true]
          apply bodyInstr_of_head_space
          repeat' apply headChar_append
          decide
      · simp only [h1, AllBody, List.all_cons, List.all_nil, Bool.and_true]
        apply bodyInstr_of_head_space
        repeat' apply headChar_append
        decide
  | LValue.LValueDot left fieldId => by
      rw [generate_lvalue_address.eq_def]
      simp only [allBody_append]
      rw [Bool.and_eq_true]
      constructor
      · rcases left with name | ⟨l2, f2⟩
        · rcases h1 : lookupA ctx.locals name with _ | off
          · rcases h2 : lookupA ctx.globals name with _ | label
            · simp [h1, h2, AllBody]
            · simp only [h1, h2, AllBody, List.all_cons, List.all_nil, Bool.and_true]
              rw [Bool.and_eq_true]
              constructor
              · apply bodyInstr_of_head_space
                repeat' apply headChar_append
                decide
              · decide
          · simp only [h1, AllBody, List.all_cons, List.all_nil, Bool.and_true]
            apply bodyInstr_of_head_space
            repeat' apply headChar_append
            decide
        · exact allBody_generate_lvalue_address ctx (LValue.LValueDot l2 f2)
      · rcases left with name | ⟨l2, f2⟩
        · rcases h1 : lookupA ctx.type_environment name with _ | ty
          · simp only [h1, AllBody, List.all_cons, List.all_nil, Bool.and_true]
            apply bodyInstr_of_head_space
            repeat' apply headChar_append
            decide
          · rcases ty with _ | _ | sname
            · simp only [h1, AllBody, List.all_cons, List.all_nil, Bool.and_true]
              apply bodyInstr_of_head_space
              repeat' apply headChar_append
              decide
            · simp only [h1, AllBody, List.all_cons, List.all_nil, Bool.and_true]
              apply bodyInstr_of_head_space
              repeat' apply headChar_append
              decide
            · rcases h2 : lookupA ctx.structs sname with _ | layout
              · simp only [h1, h2, AllBody, List.all_cons, List.all_nil,
                  Bool.and_true]
                apply bodyInstr_of_head_space
                repeat' apply headChar_append
                decide
              · rcases h3 : lookupA layout.fields fieldId with _ | off
                · simp only [h1, h2, h3, AllBody, List.all_cons, List.all_nil,
                    Bool.and_true]
                  apply bodyInstr_of_head_space
                  repeat' apply headChar_append
                  decide
                · simp only [h1, h2, h3, AllBody, List.all_cons, List.all_nil,
                    Bool.and_true]
                  apply bodyInstr_of_head_space
                  repeat' apply headChar_append
                  decide
        · simp only [AllBody, List.all_cons, List.all_nil, Bool.and_true]
          apply bodyInstr_of_head_space
          repeat' apply headChar_append
          decide

theorem allBody_epilogueRestore (n : Nat) :
    AllBody (epilogueRestore n) = true := by
  delta epilogueRestore
  rw [allBody_append]
  rw [Bool.and_eq_true]
  constructor
  · repeat' apply allBody_ite
    all_goals rfl
  · decide

theorem allBody_single_space (t : String) (h : headChar t = some ' ') :
    AllBody [Instr.other t] = true := by
  simp [AllBody, bodyInstr_of_head_space t h]

theorem allBody_single_colon (t : String) (h : lastChar t = some ':') :
    AllBody [Instr.other t] = true := by
  simp [AllBody, bodyInstr_of_last_colon t h]

mutual

theorem allBody_genStmt (ctx : CGCtx) :
    ∀ (s : Statement) (lc : Nat), AllBody (genStmt ctx lc s).1 = true
  | Statement.BlockStatement ss, lc => allBody_genStmts ctx ss lc
  | Statement.AssignmentStatement t src, lc => by
      have ih1 := allBody_genExpr ctx src
      have ih2 := allBody_generate_lvalue_address ctx t
      show AllBody (genExpr ctx src ++
        [Instr.other "    mv t1, t0  # Save result"] ++
        generate_lvalue_address ctx t ++ [Instr.other "    sw t1, 0(t0)"]) = true
      simp only [allBody_append, ih1, ih2, Bool.true_and, Bool.and_true]
      decide
  | Statement.PrintStatement e, lc => by
      have ih := allBody_genExpr ctx e
      show AllBody (genExpr ctx e ++
        [Instr.other "    mv a0, t0", Instr.other "    jal print_int"]) = true
      simp only [allBody_append, ih, Bool.true_and]
      decide
  | Statement.PrintLnStatement e, lc => by
      have ih := allBody_genExpr ctx e
      show AllBody (genExpr ctx e ++
        [Instr.other "    mv a0, t0", Instr.other "    jal print_int",
         Instr.other "    li a0, \x27\\n\x27",
         Instr.other "    jal print_char"]) = true
      simp only [allBody_append, ih, Bool.true_and]
      decide
  | Statement.ConditionalStatement g tb eb, lc => by
      have ihg := allBody_genExpr ctx g
      have iht := allBody_genStmt ctx tb (lc + 2)
      rw [genStmt.eq_def]
      rcases eb with _ | e
      · simp only [allBody_append, allBody_cons, allBody_nil, ihg, iht,
          Bool.true_and, Bool.and_true, Bool.and_eq_true]
        repeat' apply And.intro
        all_goals first
          | rfl
          | decide
          | (apply bodyInstr_of_head_space
             repeat' apply headChar_append
             decide)
          | (apply bodyInstr_of_last_colon
             repeat' apply lastChar_append
             decide)
      · by_cases hs : hasStatements e = true
        · have ihe := allBody_genStmt ctx e (genStmt ctx (lc + 2) tb).2
          simp only [allBody_append, allBody_cons, allBody_nil, hs, if_true,
            eq_self_iff_true, ihg, iht, ihe, Bool.true_and, Bool.and_true,
            Bool.and_eq_true]
          repeat' apply And.intro
          all_goals first
            | rfl
            | decide
            | (apply bodyInstr_of_head_space
               repeat' apply headChar_append
               decide)
            | (apply bodyInstr_of_last_colon
               repeat' apply lastChar_append
               decide)
        · simp only [allBody_append, allBody_cons, allBody_nil, hs, if_false,
            ihg, iht, Bool.true_and, Bool.and_true, Bool.and_eq_true]
          repeat' apply And.intro
          all_goals first
            | rfl
            | decide
            | (apply bodyInstr_of_head_space
               repeat' apply headChar_append
               decide)
            | (apply bodyInstr_of_last_colon
               repeat' apply lastChar_append
               decide)
  | Statement.WhileStatement g body, lc => by
      have ihg := allBody_genExpr ctx g
      have ihb := allBody_genStmt ctx body (lc + 2)
      rw [genStmt.eq_def]
      simp only [allBody_append, allBody_cons, allBody_nil, ihg, ihb,
        Bool.true_and, Bool.and_true, Bool.and_eq_true]
      repeat' apply And.intro
      all_goals first
        | rfl
        | decide
        | (apply bodyInstr_of_head_space
           repeat' apply headChar_append
           decide)
        | (apply bodyInstr_of_last_colon
           repeat' apply lastChar_append
           decide)
  | Statement.DeleteStatement e, lc => allBody_genExpr ctx e
  | Statement.InvocationStatement e, lc => allBody_genExpr ctx e
  | Statement.ReturnStatement oe, lc => by
      have ihe := allBody_epilogueRestore ctx.current_locals_size
      rcases oe with _ | e
      · show AllBody ([] ++ [Instr.other "    mv a0, t0"] ++
          epilogueRestore ctx.current_locals_size ++
          (if ctx.current_function = some "main" then [Instr.other "    jal exit"]
           else [Instr.other "    jr ra"])) = true
        simp only [allBody_append, ihe, Bool.true_and, Bool.and_true]
        rw [Bool.and_eq_true]
        constructor
        · decide
        · apply allBody_ite <;> decide
      · have ih := allBody_genExpr ctx e
        show AllBody (genExpr ctx e ++ [Instr.other "    mv a0, t0"] ++
          epilogueRestore ctx.current_locals_size ++
          (if ctx.current_function = some "main" then [Instr.other "    jal exit"]
           else [Instr.other "    jr ra"])) = true
        simp only [allBody_append, ih, ihe, Bool.true_and, Bool.and_true]
        rw [Bool.and_eq_true]
        constructor
        · decide
        · apply allBody_ite <;> decide
  | Statement.ReturnEmptyStatement, lc => by
      have ihe := allBody_epilogueRestore ctx.current_locals_size
      show AllBody (epilogueRestore ctx.current_locals_size ++
        (if ctx.current_function = some "main"
         then [Instr.other "    li a0, 0", Instr.other "    jal exit"]
         else [Instr.other "    jr ra"])) = true
      simp only [allBody_append, ihe, Bool.true_and]
      apply allBody_ite <;> decide

theorem allBody_genStmts (ctx : CGCtx) :
    ∀ (ss : List Statement) (lc : Nat), AllBody (genStmts ctx lc ss).1 = true
  | [], _ => by rfl
  | s :: rest, lc => by
      have ih1 := allBody_genStmt ctx s lc
      have ih2 := allBody_genStmts ctx rest (genStmt ctx lc s).2
      show AllBody ((genStmt ctx lc s).1 ++
        (genStmts ctx (genStmt ctx lc s).2 rest).1) = true
      simp only [allBody_append, ih1, ih2, Bool.and_true]

end

theorem allBody_paramSaves (localsMap : List (String × Int)) :
    ∀ (params : List Declaration) (i : Nat),
      AllBody (paramSaves localsMap i params) = true
  | [], _ => by rfl
  | p :: rest, i => by
      have ih := allBody_paramSaves localsMap rest (i + 1)
      show AllBody ((if i < 8 then _ else []) ++ paramSaves localsMap (i + 1) rest) = true
      simp only [allBody_append, ih, Bool.and_true]
      apply allBody_ite
      · apply allBody_single_space
        repeat' apply headChar_append
        decide
      · rfl

theorem allBody_mainImplicitEpilogue (total : Nat) :
    AllBody (mainImplicitEpilogue total) = true := by
  delta mainImplicitEpilogue
  simp only [allBody_append, Bool.and_eq_true]
  refine ⟨⟨by decide, ?_⟩, by decide⟩
  apply allBody_ite <;> rfl

theorem allBody_otherImplicitEpilogue (total : Nat) :
    AllBody (otherImplicitEpilogue total) = true := by
  delta otherImplicitEpilogue
  simp only [allBody_append, Bool.and_eq_true]
  refine ⟨⟨by decide, ?_⟩, by decide⟩
  apply allBody_ite <;> rfl

theorem allBody_genFunction (pctx : CGProgCtx) (env : List (String × Ty))
    (lc : Nat) (func : Function) :
    AllBody (genFunction pctx env lc func).1 = true := by
  unfold genFunction
  simp only [allBody_append, Bool.and_eq_true]
  refine ⟨⟨⟨⟨⟨⟨⟨?_, ?_⟩, ?_⟩, ?_⟩, ?_⟩, ?_⟩, ?_⟩, ?_⟩
  · apply allBody_single_colon
    repeat' apply lastChar_append
    decide
  · decide
  · apply allBody_ite <;> decide
  · apply allBody_ite <;> rfl
  · apply allBody_paramSaves
  · apply allBody_genStmts
  · apply allBody_ite
    · apply allBody_ite
      · apply allBody_mainImplicitEpilogue
      · apply allBody_otherImplicitEpilogue
    · rfl
  · decide

theorem allBody_genFunctions (pctx : CGProgCtx) :
    ∀ (fs : List Function) (env : List (String × Ty)) (lc : Nat),
      AllBody (genFunctions pctx env lc fs).1 = true
  | [], _, _ => by rfl
  | f :: rest, env, lc => by
      have ih1 := allBody_genFunction pctx env lc f
      have ih2 := allBody_genFunctions pctx rest
        (genFunction pctx env lc f).2.1 (genFunction pctx env lc f).2.2
      show AllBody ((genFunction pctx env lc f).1 ++
        (genFunctions pctx (genFunction pctx env lc f).2.1
          (genFunction pctx env lc f).2.2 rest).1) = true
      simp only [allBody_append, ih1, ih2, Bool.and_true]

theorem ne_read_import_of_head_g (t : String) (h : headChar t = some (Char.ofNat 103)) :
    Instr.other t ≠ Instr.other ".import read_int.s" := by
  intro hcon
  injection hcon with ht
  rw [ht] at h
  exact absurd h (by decide)

theorem globalDataLines_ne_read (ds : List Declaration) :
    ∀ i ∈ globalDataLines ds, i ≠ Instr.other ".import read_int.s" := by
  induction ds with
  | nil => intro i hi; simp [globalDataLines] at hi
  | cons d rest ih =>
      intro i hi
      rcases List.mem_cons.mp hi with h1 | h1
      · subst h1
        apply ne_read_import_of_head_g
        repeat' apply headChar_append
        decide
      · exact ih i h1

/-- C6 counterexample: a program with no new-expression, no
print/println and no read-expression still gets a runtime-support import
line (`berkeley_utils.s`, the library providing `sbrk`, `print_int`,
`print_char` and `exit`, is imported unconditionally). -/
def pNoRuntime : Program :=
  { types := [], declarations := [],
    functions := [ ⟨"main", [], RetTy.ReturnTypeReal Ty.IntType, [],
      [Statement.ReturnStatement (some (Expression.IntegerExpression 0))]⟩ ] }

theorem always_imports_counterexample :
    check_for_read pNoRuntime = false ∧
    Instr.other ".import berkeley_utils.s" ∈ genProgram pNoRuntime := by decide

/-- C6 (amended): the generated assembly always contains the
`.import berkeley_utils.s` runtime-support line, regardless of which
constructs the program uses; only the `.import read_int.s` line is
conditional, and it appears exactly when the whole-program scan finds a
read-expression. -/
theorem runtime_imports (p : Program) :
    Instr.other ".import berkeley_utils.s" ∈ genProgram p ∧
    (Instr.other ".import read_int.s" ∈ genProgram p ↔
      check_for_read p = true) := by
  unfold genProgram
  constructor
  · simp
  · constructor
    · intro hmem
      by_contra hrd
      rw [Bool.not_eq_true] at hrd
      rw [hrd] at hmem
      simp only [Bool.false_eq_true, if_false, List.mem_append, List.mem_cons,
        List.mem_singleton, List.not_mem_nil] at hmem
      repeat
        first
        | exact hmem.elim
        | exact absurd hmem (by decide)
        | exact globalDataLines_ne_read p.declarations _ hmem rfl
        | exact allBody_not_mem_read_import _
            (allBody_genFunctions _ p.functions _ 0) hmem
        | rcases hmem with hmem | hmem
    · intro hrd
      simp [hrd]

theorem runtime_imports_witness :
    Instr.other ".import berkeley_utils.s" ∈ genProgram pNoRuntime ∧
    (Instr.other ".import read_int.s" ∈ genProgram pNoRuntime ↔
      check_for_read pNoRuntime = true) :=
  runtime_imports pNoRuntime

/-! ## C7: the invocation calling protocol -/

/-- A generator context with nothing in scope. -/
def emptyCGCtx : CGCtx :=
  { structs := [], globals := [], locals := [], type_environment := [],
    current_function := none, current_locals_size := 0 }

theorem genArgs_enumFrom (ctx : CGCtx) :
    ∀ (args : List Expression) (i : Nat),
      genArgs ctx i args =
        ((List.enumFrom i args).map (fun (j, a) =>
          genExpr ctx a ++ [Instr.other s!"    sw t0, {j * 4}(sp)"])).flatten
  | [], _ => rfl
  | a :: rest, i => by
      have ih := genArgs_enumFrom ctx rest (i + 1)
      simp only [genArgs, List.enumFrom, List.map_cons, List.flatten_cons, ih]

/-- C7: for an invocation with at least one argument, the generator
allocates a contiguous stack buffer of exactly one word per argument
before evaluating anything, evaluates the arguments strictly
left-to-right with each result stored at slot j of the buffer, copies the
buffered values into the argument registers in position order (capped at
the eight argument registers), releases the buffer, and only then issues
the call, copying the return register a0 into the accumulator t0 after
it. -/
theorem invocation_call_protocol (ctx : CGCtx) (fname : String)
    (args : List Expression) (h : 0 < args.length) :
    genExpr ctx (Expression.InvocationExpression fname args) =
      [Instr.addiSp (-((args.length * 4 : Nat) : Int))] ++
      genArgs ctx 0 args ++
      argRegMoves (min args.length 8) ++
      [Instr.addiSp ((args.length * 4 : Nat) : Int)] ++
      [Instr.other s!"    jal {fname}", Instr.other "    mv t0, a0"] ∧
    genArgs ctx 0 args =
      ((List.enumFrom 0 args).map (fun (j, a) =>
        genExpr ctx a ++ [Instr.other s!"    sw t0, {j * 4}(sp)"])).flatten ∧
    argRegMoves (min args.length 8) =
      (List.range (min args.length 8)).map
        (fun j => Instr.other s!"    lw a{j}, {j * 4}(sp)") := by
  refine ⟨?_, genArgs_enumFrom ctx args 0, rfl⟩
  have hpos : 0 < args.length * 4 := by omega
  simp only [genExpr, hpos, if_true, gt_iff_lt]

theorem invocation_call_protocol_witness :
    0 < ([Expression.IntegerExpression 7,
          Expression.TrueExpression] : List Expression).length ∧
    genExpr emptyCGCtx (Expression.InvocationExpression "f"
        [Expression.IntegerExpression 7, Expression.TrueExpression]) =
      [Instr.addiSp (-((([Expression.IntegerExpression 7,
            Expression.TrueExpression] : List Expression).length * 4 : Nat) : Int))] ++
      genArgs emptyCGCtx 0 [Expression.IntegerExpression 7, Expression.TrueExpression] ++
      argRegMoves (min ([Expression.IntegerExpression 7,
        Expression.TrueExpression] : List Expression).length 8) ++
      [Instr.addiSp ((([Expression.IntegerExpression 7,
          Expression.TrueExpression] : List Expression).length * 4 : Nat) : Int)] ++
      [Instr.other s!"    jal f", Instr.other "    mv t0, a0"] :=
  ⟨by decide,
   (invocation_call_protocol emptyCGCtx "f"
     [Expression.IntegerExpression 7, Expression.TrueExpression] (by decide)).1⟩

/-! ## C8: the appended implicit epilogue -/

/-- C8: after generating a function's body, the generator appends an
implicit epilogue exactly when the body is empty or its last statement is
not a return statement: for `main` the epilogue restores the frame, loads
exit status 0 and calls the exit routine (`mainImplicitEpilogue`), for
any other function it restores the frame and jumps through the saved
return address (`otherImplicitEpilogue`); when the last statement is a
return, nothing is appended between the body's code and the closing blank
separator. -/
theorem implicit_epilogue_policy (pctx : CGProgCtx) (env : List (String × Ty))
    (lc : Nat) (func : Function) :
    ∃ pre : List Instr,
      (implicitEpilogueNeeded func.body = true →
        (genFunction pctx env lc func).1 =
          pre ++
          (if func.name = "main"
           then mainImplicitEpilogue (buildLocals func.locals
             (buildLocals func.params 0 []).2 (buildLocals func.params 0 []).1).2
           else otherImplicitEpilogue (buildLocals func.locals
             (buildLocals func.params 0 []).2 (buildLocals func.params 0 []).1).2) ++
          [Instr.other ""]) ∧
      (implicitEpilogueNeeded func.body = false →
        (genFunction pctx env lc func).1 = pre ++ [Instr.other ""]) ∧
      (implicitEpilogueNeeded func.body = true ↔
        func.body = [] ∨
        ∃ s, func.body.getLast? = some s ∧ isReturnLike s = false) := by
  refine ⟨[Instr.other s!"{func.name}:"] ++
    [Instr.addiSp (-8), Instr.other "    sw ra, 4(sp)",
     Instr.other "    sw fp, 0(sp)", Instr.other "    addi fp, sp, 0"] ++
    (if func.name = "main" ∧ pctx.read = true then
       [Instr.other "    # Save input filename", Instr.other "    lw t0, 4(a1)",
        Instr.other "    la t1, input_file_ptr", Instr.other "    sw t0, 0(t1)"]
     else []) ++
    (if (buildLocals func.locals (buildLocals func.params 0 []).2
          (buildLocals func.params 0 []).1).2 > 0
     then [Instr.addiSp (-(((buildLocals func.locals
          (buildLocals func.params 0 []).2
          (buildLocals func.params 0 []).1).2 : Nat) : Int))] else []) ++
    paramSaves (buildLocals func.locals (buildLocals func.params 0 []).2
          (buildLocals func.params 0 []).1).1 0 func.params ++
    (genStmts ⟨pctx.structs, pctx.globals,
       (buildLocals func.locals (buildLocals func.params 0 []).2
          (buildLocals func.params 0 []).1).1,
       (func.params ++ func.locals).foldl
         (fun e d => dictInsert e d.name d.type) env,
       some func.name,
       (buildLocals func.locals
          (buildLocals func.params 0 []).2 (buildLocals func.params 0 []).1).2⟩
       lc func.body).1, ?_, ?_, ?_⟩
  · intro hneed
    unfold genFunction
    rw [hneed]
    simp [List.append_assoc]
  · intro hneed
    unfold genFunction
    rw [hneed]
    simp [List.append_assoc]
  · unfold implicitEpilogueNeeded
    cases hlast : func.body.getLast? with
    | none =>
        simp only [List.getLast?_eq_none_iff] at hlast
        simp [hlast]
    | some s =>
        have hne : func.body ≠ [] := by
          intro hcon
          rw [hcon] at hlast
          simp at hlast
        constructor
        · intro hret
          refine Or.inr ⟨s, rfl, ?_⟩
          simpa using hret
        · intro hcase
          rcases hcase with hcase | ⟨s2, hs2, hret⟩
          · exact absurd hcase hne
          · injection hs2 with hs2
            subst hs2
            simpa using hret

/-- A `main` whose body's last statement is not a return. -/
def mainNoReturn : Function :=
  ⟨"main", [], RetTy.ReturnTypeReal Ty.IntType, [],
    [Statement.PrintStatement (Expression.IntegerExpression 1)]⟩

def cgEmptyProg : CGProgCtx := { structs := [], globals := [], read := false }

theorem implicit_epilogue_policy_witness :
    implicitEpilogueNeeded mainNoReturn.body = true ∧
    ∃ pre, (genFunction cgEmptyProg [] 0 mainNoReturn).1 =
      pre ++ mainImplicitEpilogue 0 ++ [Instr.other ""] := by
  refine ⟨by decide, ?_⟩
  obtain ⟨pre, h1, h2, h3⟩ := implicit_epilogue_policy cgEmptyProg [] 0 mainNoReturn
  refine ⟨pre, ?_⟩
  have := h1 (by decide)
  simpa using this

/-! ## C9: expression code is stack-neutral -/

theorem spSum_append (a b : List Instr) : spSum (a ++ b) = spSum a + spSum b := by
  simp [spSum]

theorem spSum_ite0 {c : Prop} [Decidable c] {a b : List Instr}
    (ha : spSum a = 0) (hb : spSum b = 0) : spSum (if c then a else b) = 0 := by
  by_cases h : c
  · rwa [if_pos h]
  · rwa [if_neg h]

theorem spSum_binOpInstrs (op : String) : spSum (binOpInstrs op) = 0 := by
  delta binOpInstrs
  repeat' apply spSum_ite0
  all_goals rfl

theorem spSum_argRegMoves (n : Nat) : spSum (argRegMoves n) = 0 := by
  simp only [spSum, argRegMoves, List.map_map]
  induction n with
  | zero => rfl
  | succ k ih =>
      rw [List.range_succ]
      simp only [List.map_append, List.sum_append]
      rw [ih]
      rfl

mutual

theorem spSum_genExpr (ctx : CGCtx) :
    ∀ e : Expression, spSum (genExpr ctx e) = 0
  | Expression.IntegerExpression _ => rfl
  | Expression.TrueExpression => rfl
  | Expression.FalseExpression => rfl
  | Expression.NullExpression => rfl
  | Expression.ReadExpression => rfl
  | Expression.IdentifierExpression name => by
      simp only [genExpr]
      rcases lookupA ctx.locals name with _ | off
      · rcases lookupA ctx.globals name with _ | label <;> rfl
      · rfl
  | Expression.BinaryExpression op l r => by
      have ihl := spSum_genExpr ctx l
      have ihr := spSum_genExpr ctx r
      show spSum (genExpr ctx l ++
        [Instr.addiSp (-4), Instr.other "    sw t0, 0(sp)  # Push left"] ++
        genExpr ctx r ++
        [Instr.other "    mv t1, t0", Instr.other "    lw t0, 0(sp)  # Pop left",
         Instr.addiSp 4] ++ binOpInstrs op) = 0
      simp only [spSum_append, ihl, ihr, spSum_binOpInstrs op]
      decide
  | Expression.UnaryExpression op operand => by
      have ih := spSum_genExpr ctx operand
      show spSum (genExpr ctx operand ++
        (if op = "-" then [Instr.other "    neg t0, t0"]
         else if op = "!" then [Instr.other "    seqz t0, t0"]
         else [])) = 0
      rw [spSum_append, ih]
      have h2 : spSum (if op = "-" then [Instr.other "    neg t0, t0"]
         else if op = "!" then [Instr.other "    seqz t0, t0"]
         else []) = 0 := by
        repeat' apply spSum_ite0
        all_goals rfl
      rw [h2]
      rfl
  | Expression.DotExpression left fieldId => by
      have ih := spSum_genExpr ctx left
      simp only [genExpr, spSum_append, ih]
      rcases get_struct_type ctx.type_environment left with _ | sname
      · rfl
      · rcases h2 : lookupA ctx.structs sname with _ | layout
        · simp [h2, spSum, spDelta]
        · rcases h3 : lookupA layout.fields fieldId with _ | off
          · simp [h2, h3, spSum, spDelta]
          · simp [h2, h3, spSum, spDelta]
  | Expression.InvocationExpression fname args => by
      have iha := spSum_genArgs ctx 0 args
      show spSum ((if args.length * 4 > 0
          then [Instr.addiSp (-((args.length * 4 : Nat) : Int))] else []) ++
        genArgs ctx 0 args ++ argRegMoves (min args.length 8) ++
        (if args.length * 4 > 0
          then [Instr.addiSp ((args.length * 4 : Nat) : Int)] else []) ++
        [Instr.other s!"    jal {fname}", Instr.other "    mv t0, a0"]) = 0
      simp only [spSum_append, iha, spSum_argRegMoves]
      by_cases h : args.length * 4 > 0
      · simp only [h, if_true]
        simp [spSum, spDelta]
      · simp only [h, if_false]
        rfl
  | Expression.NewExpression sname => by
      simp only [genExpr]
      rcases lookupA ctx.structs sname with _ | layout <;> rfl

theorem spSum_genArgs (ctx : CGCtx) (i : Nat) :
    ∀ args : List Expression, spSum (genArgs ctx i args) = 0
  | [] => rfl
  | a :: rest => by
      have ih1 := spSum_genExpr ctx a
      have ih2 := spSum_genArgs ctx (i + 1) rest
      show spSum (genExpr ctx a ++ [Instr.other s!"    sw t0, {i*4}(sp)"] ++
        genArgs ctx (i + 1) rest) = 0
      simp only [spSum_append, ih1, ih2]
      rfl

end

/-- C9: the instruction sequence the generator emits for any expression
has a net stack-pointer displacement of zero: the one-word push of every
binary expression's left operand is matched by its pop, and the argument
staging buffer of every invocation is fully released before the call, so
evaluating an expression leaves sp where it started. -/
theorem expression_stack_neutral (ctx : CGCtx) (e : Expression) :
    spSum (genExpr ctx e) = 0 :=
  spSum_genExpr ctx e

theorem expression_stack_neutral_witness :
    spSum (genExpr emptyCGCtx (Expression.BinaryExpression "+"
      (Expression.IntegerExpression 1)
      (Expression.InvocationExpression "f"
        [Expression.IntegerExpression 2, Expression.TrueExpression]))) = 0 :=
  expression_stack_neutral emptyCGCtx
    (Expression.BinaryExpression "+" (Expression.IntegerExpression 1)
      (Expression.InvocationExpression "f"
        [Expression.IntegerExpression 2, Expression.TrueExpression]))

/-! ## C10: function cleanup deletes shadowed globals from the type
environment, so later field accesses on such globals fall back to
offset 0 -/

theorem lookupA_cons_ne {α : Type} (p : String × α) (m : List (String × α))
    (g : String) (h : ¬ p.1 = g) : lookupA (p :: m) g = lookupA m g := by
  simp [lookupA, List.find?_cons, h]

theorem lookupA_cons_eq {α : Type} (p : String × α) (m : List (String × α))
    (g : String) (h : p.1 = g) : lookupA (p :: m) g = some p.2 := by
  simp [lookupA, List.find?_cons, h]

theorem lookupA_append_left {α : Type} (m1 m2 : List (String × α)) (g : String)
    (v : α) (h : lookupA m1 g = some v) : lookupA (m1 ++ m2) g = some v := by
  simp only [lookupA, List.find?_append]
  cases hf : m1.find? (fun p => decide (p.1 = g)) with
  | none =>
      exfalso
      simp [lookupA, hf] at h
  | some p =>
      simp only [lookupA] at h
      rw [hf] at h
      simp at h
      simp [Option.or, h]

theorem lookupA_dictErase_self {α : Type} (m : List (String × α)) (k : String) :
    lookupA (dictErase m k) k = none := by
  rw [lookupA_eq_none]
  intro p hp
  have := List.of_mem_filter hp
  simpa using this

theorem lookupA_dictErase_ne {α : Type} (m : List (String × α)) (k g : String)
    (h : g ≠ k) : lookupA (dictErase m k) g = lookupA m g := by
  induction m with
  | nil => rfl
  | cons p rest ih =>
      by_cases hpk : p.1 = k
      · have hpg : ¬ p.1 = g := by
          rw [hpk]
          intro hcon
          exact h hcon.symm
        rw [show dictErase (p :: rest) k = dictErase rest k from by
          simp [dictErase, hpk]]
        rw [lookupA_cons_ne p rest g hpg, ih]
      · rw [show dictErase (p :: rest) k = p :: dictErase rest k from by
          simp [dictErase, hpk]]
        by_cases hpg : p.1 = g
        · rw [lookupA_cons_eq p _ g hpg, lookupA_cons_eq p rest g hpg]
        · rw [lookupA_cons_ne p _ g hpg, lookupA_cons_ne p rest g hpg, ih]

theorem lookupA_foldl_erase_none {α : Type} :
    ∀ (names : List String) (m : List (String × α)) (g : String),
      lookupA m g = none →
      lookupA (names.foldl (fun e k => dictErase e k) m) g = none
  | [], _, _, h => h
  | k :: rest, m, g, h => by
      refine lookupA_foldl_erase_none rest (dictErase m k) g ?_
      by_cases hk : g = k
      · subst hk
        exact lookupA_dictErase_self m g
      · rw [lookupA_dictErase_ne m k g hk]
        exact h

theorem lookupA_foldl_erase_mem {α : Type} :
    ∀ (names : List String) (m : List (String × α)) (g : String),
      g ∈ names →
      lookupA (names.foldl (fun e k => dictErase e k) m) g = none
  | [], _, _, h => by simp at h
  | k :: rest, m, g, h => by
      rcases List.mem_cons.mp h with h1 | h1
      · subst h1
        exact lookupA_foldl_erase_none rest (dictErase m g) g
          (lookupA_dictErase_self m g)
      · exact lookupA_foldl_erase_mem rest (dictErase m k) g h1

theorem lookupA_foldl_erase_not_mem {α : Type} :
    ∀ (names : List String) (m : List (String × α)) (g : String),
      g ∉ names →
      lookupA (names.foldl (fun e k => dictErase e k) m) g = lookupA m g
  | [], _, _, _ => rfl
  | k :: rest, m, g, h => by
      have hk : g ≠ k := fun hcon => h (hcon ▸ List.mem_cons_self k rest)
      have hrest : g ∉ rest := fun hcon => h (List.mem_cons_of_mem k hcon)
      rw [List.foldl_cons]
      rw [lookupA_foldl_erase_not_mem rest (dictErase m k) g hrest]
      exact lookupA_dictErase_ne m k g hk

theorem lookupA_dictInsert_ne {α : Type} (m : List (String × α)) (k g : String)
    (v : α) (h : g ≠ k) : lookupA (dictInsert m k v) g = lookupA m g := by
  unfold dictInsert
  split_ifs with hin
  · clear hin
    induction m with
    | nil => rfl
    | cons p rest ih =>
        rw [List.map_cons]
        by_cases hpk : p.1 = k
        · rw [if_pos hpk]
          have hkg : ¬ (k, v).1 = g := fun hcon => h (by simpa using hcon.symm)
          have hpg : ¬ p.1 = g := by
            rw [hpk]
            intro hcon
            exact h hcon.symm
          rw [lookupA_cons_ne _ _ g hkg, lookupA_cons_ne p rest g hpg]
          exact ih
        · rw [if_neg hpk]
          by_cases hpg : p.1 = g
          · rw [lookupA_cons_eq _ _ g hpg, lookupA_cons_eq p rest g hpg]
          · rw [lookupA_cons_ne _ _ g hpg, lookupA_cons_ne p rest g hpg]
            exact ih
  · cases hm : lookupA m g with
    | some v2 => rw [lookupA_append_left m [(k, v)] g v2 hm]
    | none =>
        rw [lookupA_append_of_none hm]
        have hkg : ¬ (k, v).1 = g := fun hcon => h (by simpa using hcon.symm)
        rw [lookupA_cons_ne _ _ g hkg]
        rfl

theorem lookupA_foldl_insert_not_mem :
    ∀ (decls : List Declaration) (m : List (String × Ty)) (g : String),
      g ∉ decls.map Declaration.name →
      lookupA (decls.foldl (fun e d => dictInsert e d.name d.type) m) g =
        lookupA m g
  | [], _, _, _ => rfl
  | d :: rest, m, g, h => by
      have hd : g ≠ d.name := by
        intro hcon
        exact h (hcon ▸ List.mem_map_of_mem Declaration.name
          (List.mem_cons_self d rest))
      have hrest : g ∉ rest.map Declaration.name := by
        intro hcon
        simp only [List.map_cons, List.mem_cons] at h
        exact h (Or.inr hcon)
      rw [List.foldl_cons]
      rw [lookupA_foldl_insert_not_mem rest _ g hrest]
      exact lookupA_dictInsert_ne m d.name g d.type hd

theorem genFunction_env_shadow (pctx : CGProgCtx) (env : List (String × Ty))
    (lc : Nat) (f : Function) (g : String)
    (h : g ∈ (f.params ++ f.locals).map Declaration.name) :
    lookupA (genFunction pctx env lc f).2.1 g = none := by
  show lookupA
    (((f.params ++ f.locals).map (fun d => d.name)).foldl
      (fun e k => dictErase e k)
      ((f.params ++ f.locals).foldl (fun e d => dictInsert e d.name d.type) env))
    g = none
  exact lookupA_foldl_erase_mem _ _ g h

theorem genFunction_env_other (pctx : CGProgCtx) (env : List (String × Ty))
    (lc : Nat) (f : Function) (g : String)
    (h : g ∉ (f.params ++ f.locals).map Declaration.name) :
    lookupA (genFunction pctx env lc f).2.1 g = lookupA env g := by
  show lookupA
    (((f.params ++ f.locals).map (fun d => d.name)).foldl
      (fun e k => dictErase e k)
      ((f.params ++ f.locals).foldl (fun e d => dictInsert e d.name d.type) env))
    g = lookupA env g
  rw [lookupA_foldl_erase_not_mem _ _ g h]
  exact lookupA_foldl_insert_not_mem _ env g h

theorem genFunctions_env_none (pctx : CGProgCtx) :
    ∀ (fs : List Function) (env : List (String × Ty)) (lc : Nat) (g : String),
      lookupA env g = none →
      lookupA (genFunctions pctx env lc fs).2.1 g = none
  | [], _, _, _, h => h
  | f :: rest, env, lc, g, h => by
      refine genFunctions_env_none pctx rest _ _ g ?_
      by_cases hg : g ∈ (f.params ++ f.locals).map Declaration.name
      · exact genFunction_env_shadow pctx env lc f g hg
      · rw [genFunction_env_other pctx env lc f g hg]
        exact h

theorem genFunctions_env_shadow (pctx : CGProgCtx) :
    ∀ (fs : List Function) (env : List (String × Ty)) (lc : Nat) (g : String),
      (∃ f ∈ fs, g ∈ (f.params ++ f.locals).map Declaration.name) →
      lookupA (genFunctions pctx env lc fs).2.1 g = none
  | [], _, _, _, h => by
      obtain ⟨f, hf, _⟩ := h
      simp at hf
  | f :: rest, env, lc, g, h => by
      obtain ⟨f0, hf0, hg0⟩ := h
      rcases List.mem_cons.mp hf0 with h1 | h1
      · subst h1
        refine genFunctions_env_none pctx rest _ _ g ?_
        exact genFunction_env_shadow pctx env lc f0 g hg0
      · by_cases hg : g ∈ (f.params ++ f.locals).map Declaration.name
        · refine genFunctions_env_none pctx rest _ _ g ?_
          exact genFunction_env_shadow pctx env lc f g hg
        · exact genFunctions_env_shadow pctx rest _ _ g ⟨f0, h1, hg0⟩

/-- C10: when the generator finishes a function, it deletes every
parameter/local name from the persistent type environment outright — it
never restores a global's entry for a shadowed name — so after any
function that shadows a struct-typed global g has been generated, g
resolves to no type for the rest of the run (first two conjuncts; the
fourth shows a later function that does not itself declare g leaves g
unresolved in its body context), and a field access whose base is such a
g compiles to the unknown-struct-type fallback load at offset 0 instead
of using the layout table (third conjunct). -/
theorem shadowed_global_env_deletion (pctx : CGProgCtx)
    (env : List (String × Ty)) (lc : Nat) :
    (∀ (f : Function) (g : String),
       g ∈ (f.params ++ f.locals).map Declaration.name →
       lookupA (genFunction pctx env lc f).2.1 g = none) ∧
    (∀ (fs : List Function) (g : String),
       (∃ f ∈ fs, g ∈ (f.params ++ f.locals).map Declaration.name) →
       lookupA (genFunctions pctx env lc fs).2.1 g = none) ∧
    (∀ (ctx : CGCtx) (g fld : String),
       lookupA ctx.type_environment g = none →
       genExpr ctx (Expression.DotExpression
           (Expression.IdentifierExpression g) fld) =
         genExpr ctx (Expression.IdentifierExpression g) ++
         [Instr.other "    mv t2, t0  # Save struct pointer",
          Instr.other
            s!"    lw t0, 0(t2)  # Load field {fld} (unknown struct type)"]) ∧
    (∀ (f : Function) (g : String),
       g ∉ (f.params ++ f.locals).map Declaration.name →
       lookupA ((f.params ++ f.locals).foldl
         (fun e d => dictInsert e d.name d.type) env) g = lookupA env g) := by
  refine ⟨genFunction_env_shadow pctx env lc,
    fun fs => genFunctions_env_shadow pctx fs env lc, ?_,
    fun f g h => lookupA_foldl_insert_not_mem _ env g h⟩
  intro ctx g fld h
  simp only [genExpr, get_struct_type, h]
  simp [List.append_assoc]

/-- The shadowing scenario: global g of struct type S; f1 declares a
local named g; f2 (generated later, not declaring g) reads g.next.  The
field "next" sits at offset 4 in S's layout, yet the access compiles to
the offset-0 fallback. -/
def shadowFunc1 : Function :=
  ⟨"f1", [], RetTy.ReturnTypeVoid, [⟨"g", Ty.IntType⟩], []⟩

def shadowEnv0 : List (String × Ty) := [("g", Ty.StructType "S")]

def shadowCG : CGProgCtx :=
  { structs := [("S", ⟨[("prev", 0), ("next", 4)], 8⟩)],
    globals := [("g", "global_g")], read := false }

def shadowCtx2 : CGCtx :=
  { structs := shadowCG.structs, globals := shadowCG.globals, locals := [],
    type_environment := (genFunction shadowCG shadowEnv0 0 shadowFunc1).2.1,
    current_function := some "f2", current_locals_size := 0 }

theorem shadowed_global_env_deletion_witness :
    "g" ∈ (shadowFunc1.params ++ shadowFunc1.locals).map Declaration.name ∧
    lookupA (genFunction shadowCG shadowEnv0 0 shadowFunc1).2.1 "g" = none ∧
    genExpr shadowCtx2 (Expression.DotExpression
        (Expression.IdentifierExpression "g") "next") =
      genExpr shadowCtx2 (Expression.IdentifierExpression "g") ++
      [Instr.other "    mv t2, t0  # Save struct pointer",
       Instr.other "    lw t0, 0(t2)  # Load field next (unknown struct type)"] :=
  ⟨by decide,
   (shadowed_global_env_deletion shadowCG shadowEnv0 0).1 shadowFunc1 "g"
     (by decide),
   (shadowed_global_env_deletion shadowCG shadowEnv0 0).2.2.1 shadowCtx2 "g"
     "next" (by decide)⟩

end MiniCompiler
